import Mathlib

/-!
# cron-weather: the Bing image-of-the-day sharer (`cmd/main.go`)

A shallow embedding of `cmd/main.go` and the properties of its specification.

Conventions of the embedding.

* A Go `string` or `[]byte` is a Lean `String`.  Everything the program does with
  its strings (concatenation, comparison with `""`, copying) is independent of
  how the elements are encoded.
* A Go `error` result is an `Option GoError` (`none` is `nil`); a `(T, error)`
  result is an `Except GoError T`.
* The HTTP client `w.client` is the outside world.  It is a function from the
  requests issued so far and the request issued now to the outcome of the
  call, so that any deterministic stub, stateful or not, is an instance.  Every
  operation takes the log of the calls made so far and returns the extended
  log.
* An `io.Reader` is the finite byte sequence it delivers together with the way
  it ends: end of file, or a read error.
-/

namespace CronWeather

/-! ## Go runtime values -/

/-- A Go `error` value, identified by the text `Error()` returns. -/
structure GoError where
  msg : String
deriving DecidableEq, Repr

/-- An `io.Reader`: the bytes it delivers before it ends, and how it ends
(`none`: `io.EOF`; `some e`: the read error `e`). -/
structure Reader where
  data : String
  err : Option GoError
deriving DecidableEq, Repr

/-- The part of `http.Response` the program looks at. -/
structure Response where
  StatusCode : Int
  Body : Reader
deriving DecidableEq, Repr

/-- The part of `http.Request` the program sets.  `Body` is the content of
the in-memory reader (`strings.Reader`, `bytes.Buffer`) handed to
`http.NewRequestWithContext`; a `GET` issued through `client.Get` has none. -/
structure Request where
  Method : String
  URL : String
  Header : List (String × String)
  Body : String
deriving DecidableEq, Repr

/-- The behaviour of an `*http.Client`: given the calls issued before and the
call issued now, either a transport error or a response. -/
abbrev HTTPClient := List Request → Request → Except GoError Response

/-- `io.ReadAll(r)`: all bytes of the reader, or the read error. -/
def ioReadAll (r : Reader) : Except GoError String :=
  match r.err with
  | none => .ok r.data
  | some e => .error e

/-- `bufio.NewReader(rd)`: a buffered reader delivers the bytes of the
underlying reader and ends the way it ends. -/
def bufioNewReader (rd : Reader) : Reader := rd

/-! ## Constants of `cmd/main.go` -/

def Host : String := "https://api.weibo.com"
def ShareStatus : String := Host ++ "/2/statuses/share.json"
def BingBase : String := "https://cn.bing.com"
def LatestBingContent : String :=
  BingBase ++ "/HPImageArchive.aspx?format=js&idx=0&n=1&mkt=zh-CN"
def Urlencoded : String := "application/x-www-form-urlencoded"
def StatusKey : String := "status"
def PicKey : String := "pic"

/-! ## `mime/multipart.Writer` over a `bytes.Buffer` -/

namespace multipart

/-- A `multipart.Writer` writing into a `bytes.Buffer`: `w` is the content of
the buffer, `lastpart` tells whether a part has been created.  Writing to a
`bytes.Buffer` does not fail, so no operation below returns an error. -/
structure Writer where
  w : String
  boundary : String
  lastpart : Bool
deriving DecidableEq, Repr

/-- `multipart.NewWriter(body)` on the empty buffer.  The boundary is drawn at
random by the library; here it is given. -/
def NewWriter (boundary : String) : Writer :=
  { w := "", boundary := boundary, lastpart := false }

/-- The `quoteEscaper` of `mime/multipart`: a backslash and a double quote get
a backslash in front. -/
def escapeQuotes (s : String) : String :=
  String.join (s.toList.map fun c =>
    if c = '\\' then "\\\\" else if c = '"' then "\\\"" else c.toString)

/-- `(*Writer).CreatePart(header)`: the delimiter line (with a leading CRLF
unless this is the first part), the header lines in the order of their sorted
keys, and an empty line.  `header` lists the header in that order. -/
def Writer.CreatePart (mw : Writer) (header : List (String × String)) : Writer :=
  let b := if mw.lastpart then "\r\n--" ++ mw.boundary ++ "\r\n"
           else "--" ++ mw.boundary ++ "\r\n"
  let b := header.foldl (fun acc kv => acc ++ (kv.1 ++ ": " ++ kv.2 ++ "\r\n")) b
  let b := b ++ "\r\n"
  { mw with w := mw.w ++ b, lastpart := true }

/-- `(*Writer).CreateFormField(fieldname)`. -/
def Writer.CreateFormField (mw : Writer) (fieldname : String) : Writer :=
  mw.CreatePart
    [("Content-Disposition", "form-data; name=\"" ++ escapeQuotes fieldname ++ "\"")]

/-- Writing `p` to the part created last. -/
def Writer.Write (mw : Writer) (p : String) : Writer :=
  { mw with w := mw.w ++ p }

/-- `(*Writer).WriteField(fieldname, value)`. -/
def Writer.WriteField (mw : Writer) (fieldname value : String) : Writer :=
  (mw.CreateFormField fieldname).Write value

/-- `(*Writer).CreateFormFile(fieldname, filename)`. -/
def Writer.CreateFormFile (mw : Writer) (fieldname filename : String) : Writer :=
  mw.CreatePart
    [("Content-Disposition",
        "form-data; name=\"" ++ escapeQuotes fieldname ++ "\"; filename=\""
          ++ escapeQuotes filename ++ "\""),
     ("Content-Type", "application/octet-stream")]

/-- `(*Writer).Close()`: the closing delimiter line. -/
def Writer.Close (mw : Writer) : Writer :=
  { mw with w := mw.w ++ ("\r\n--" ++ mw.boundary ++ "--\r\n"), lastpart := false }

/-- `(*Writer).FormDataContentType()`: the boundary is quoted when it holds
one of the characters RFC 2045 calls tspecials, or a blank. -/
def Writer.FormDataContentType (mw : Writer) : String :=
  let b := if mw.boundary.toList.any (fun c => "()<>@,;:\\\"/[]?= ".toList.contains c)
           then "\"" ++ mw.boundary ++ "\"" else mw.boundary
  "multipart/form-data; boundary=" ++ b

end multipart

/-- `io.Copy(file, reader)` into the part created last: the bytes the reader
delivers are written, and the reader's error, if any, is returned. -/
def ioCopy (file : multipart.Writer) (reader : Reader) :
    multipart.Writer × Option GoError :=
  (file.Write reader.data, reader.err)

/-! ## The share client -/

/-- The struct `weiboShareClient`. -/
structure weiboShareClient where
  client : HTTPClient
  accessToken : String
  sourceURL : String

/-- What a share operation leaves behind: the error it returns, the log of
the HTTP calls, and the content of the buffer it built its request body in. -/
structure ShareResult where
  err : Option GoError
  calls : List Request
  body : String
deriving DecidableEq, Repr

namespace weiboShareClient

/-- `w.client.Do(req)`: the call is logged and its outcome is the client's. -/
def Do (w : weiboShareClient) (log : List Request) (req : Request) :
    Except GoError Response × List Request :=
  (w.client log req, log ++ [req])

/-- `w.client.Get(url)`: a `GET` with no header and no body. -/
def Get (w : weiboShareClient) (log : List Request) (url : String) :
    Except GoError Response × List Request :=
  w.Do log { Method := "GET", URL := url, Header := [], Body := "" }

/-- `setAuth`. -/
def setAuth (w : weiboShareClient) (req : Request) : Request :=
  { req with Header := req.Header ++ [("Authorization", "OAuth2 " ++ w.accessToken)] }

/-- `handleResponse`: status 200 drains the body and returns `nil`; any other
status reads the body and returns the read error or the formatted error. -/
def handleResponse (_w : weiboShareClient) (response : Response) : Option GoError :=
  if response.StatusCode = 200 then
    none
  else
    match ioReadAll response.Body with
    | .error err => some err
    | .ok body => some ⟨"failed to share text,response body:" ++ body⟩

/-- `ShareText`.  `http.NewRequestWithContext` cannot fail here: the method
and the URL are valid constants and the context is not nil. -/
def ShareText (w : weiboShareClient) (log : List Request) (text : String) : ShareResult :=
  let payload := StatusKey ++ "=" ++ text ++ w.sourceURL
  let req : Request := { Method := "POST", URL := ShareStatus, Header := [], Body := payload }
  let req := w.setAuth req
  let req := { req with Header := req.Header ++ [("Content-Type", Urlencoded)] }
  match w.Do log req with
  | (.error err, log) => { err := some err, calls := log, body := payload }
  | (.ok response, log) =>
    { err := w.handleResponse response, calls := log, body := payload }

/-- `SharePicture`.  `boundary` is the boundary `multipart.NewWriter` draws.
`CreateFormFile` cannot fail on a `bytes.Buffer`, nor can
`http.NewRequestWithContext` (see `ShareText`). -/
def SharePicture (w : weiboShareClient) (boundary : String) (log : List Request)
    (text : String) (reader : Reader) : ShareResult :=
  let writer := multipart.NewWriter boundary
  let writer := writer.WriteField StatusKey (text ++ w.sourceURL)
  let file := writer.CreateFormFile PicKey "pic"
  match ioCopy file reader with
  | (writer, some err) => { err := some err, calls := log, body := writer.w }
  | (writer, none) =>
    let writer := writer.Close
    let body := writer.w
    let req : Request := { Method := "POST", URL := ShareStatus, Header := [], Body := body }
    let req := w.setAuth req
    let req := { req with
      Header := req.Header.filter (fun kv => kv.1 ≠ "Content-Type")
        ++ [("Content-Type", writer.FormDataContentType)] }
    match w.Do log req with
    | (.error err, log) => { err := some err, calls := log, body := body }
    | (.ok response, log) =>
      { err := w.handleResponse response, calls := log, body := body }

end weiboShareClient

/-- `NewWeiboShareClient`; `DefaultClient` is `http.DefaultClient`. -/
def NewWeiboShareClient (DefaultClient : HTTPClient) (accessToken sourceURL : String) :
    weiboShareClient :=
  { client := DefaultClient, accessToken := accessToken, sourceURL := sourceURL }


/-! ## `net/url`: decoding a form body -/

namespace url

/-- `unhex`: the value of a hexadecimal digit. -/
def unhex (c : Char) : Option Nat :=
  if '0' ≤ c ∧ c ≤ '9' then some (c.toNat - '0'.toNat)
  else if 'a' ≤ c ∧ c ≤ 'f' then some (c.toNat - 'a'.toNat + 10)
  else if 'A' ≤ c ∧ c ≤ 'F' then some (c.toNat - 'A'.toNat + 10)
  else none

/-- `url.QueryUnescape` on the characters of a string: `+` is a blank, `%XY`
the byte with hexadecimal value `XY`; a `%` not followed by two hexadecimal
digits is an error (`none`). -/
def unescape : List Char → Option (List Char)
  | [] => some []
  | c :: rest =>
    if c = '%' then
      match rest with
      | a :: b :: rest2 =>
        match unhex a, unhex b, unescape rest2 with
        | some h, some l, some out => some (Char.ofNat (16 * h + l) :: out)
        | _, _, _ => none
      | _ => none
    else
      match unescape rest with
      | some out => some ((if c = '+' then ' ' else c) :: out)
      | none => none

/-- `strings.Cut(s, sep)` for a one-character separator: the text before the
first `sep`, the text after it, and whether `sep` was found. -/
def cut (sep : Char) : List Char → List Char × List Char × Bool
  | [] => ([], [], false)
  | c :: rest =>
    if c = sep then ([], rest, true)
    else
      let r := cut sep rest
      (c :: r.1, r.2.1, r.2.2)

/-- The pieces `for query != ""` of `parseQuery` goes through: the text
between consecutive `&`. -/
def pieces : List Char → List (List Char)
  | [] => []
  | c :: rest =>
    if c = '&' then [] :: pieces rest
    else
      match pieces rest with
      | [] => [[c]]
      | p :: ps => (c :: p) :: ps

/-- One round of the loop of `parseQuery`: a piece with a semicolon and a
piece that does not unescape are errors, an empty piece is skipped, and any
other piece adds the pair of its unescaped key and value. -/
def parsePiece (acc : List (String × String) × Bool) (key : List Char) :
    List (String × String) × Bool :=
  if key.contains ';' then (acc.1, true)
  else if key = [] then acc
  else
    let kv := cut '=' key
    match unescape kv.1, unescape kv.2.1 with
    | some k, some v => (acc.1 ++ [(String.mk k, String.mk v)], acc.2)
    | _, _ => (acc.1, true)

/-- `url.ParseQuery(query)`: the key-value pairs of a form body in the order
they appear, and whether an error was met. -/
def ParseQuery (query : String) : List (String × String) × Bool :=
  (pieces query.toList).foldl parsePiece ([], false)

end url

/-! ## Reading a multipart body back (RFC 2046, section 5.1.1)

What the receiver of a `multipart/form-data` body does with it: the parts
lie between delimiter lines, and in a part an empty line separates the
header from the content. -/

namespace multipart

/-- The text before the first occurrence of `pat` in a text and the text
after that occurrence; `none` when `pat` does not occur. -/
def splitAtFirst (pat : List Char) : List Char → Option (List Char × List Char)
  | [] => if pat = [] then some ([], []) else none
  | c :: cs =>
    if pat.isPrefixOf (c :: cs) then some ([], (c :: cs).drop pat.length)
    else (splitAtFirst pat cs).map fun r => (c :: r.1, r.2)

/-- The parts of a body after a delimiter line, each with its header and its
content: the header ends at the first empty line, the content at the next
delimiter (a line break, two hyphens and the boundary); two hyphens after the
delimiter close the body, a line break starts the next part. -/
def readParts (delimiter : List Char) : Nat → List Char → Option (List (String × String))
  | 0, _ => none
  | fuel + 1, cs =>
    match splitAtFirst ['\r', '\n', '\r', '\n'] cs with
    | none => none
    | some (header, rest) =>
      match splitAtFirst delimiter rest with
      | none => none
      | some (content, rest1) =>
        match rest1 with
        | '-' :: '-' :: _ => some [(String.mk header, String.mk content)]
        | '\r' :: '\n' :: rest2 =>
          (readParts delimiter fuel rest2).map fun parts =>
            (String.mk header, String.mk content) :: parts
        | _ => none

/-- The parts of a multipart body with the boundary `boundary`.  A body
starts with the first delimiter line; every part takes at least one
character, so the length of the body is fuel enough. -/
def readForm (boundary body : String) : Option (List (String × String)) :=
  let first := '-' :: '-' :: (boundary.toList ++ ['\r', '\n'])
  if first.isPrefixOf body.toList then
    readParts ('\r' :: '\n' :: '-' :: '-' :: boundary.toList) body.length
      (body.toList.drop first.length)
  else none

/-- The delimiter of the boundary occurs in the content `content`, followed
by the delimiter, at the end only: the content cannot be taken for the end of
its part. -/
def fresh (boundary content : String) : Prop :=
  splitAtFirst ('\r' :: '\n' :: '-' :: '-' :: boundary.toList)
      (content.toList ++ '\r' :: '\n' :: '-' :: '-' :: boundary.toList)
    = some (content.toList, [])

end multipart

/-! ## JSON documents (RFC 8259)

`github.com/tidwall/gjson` is a library the program imports; its source is
not part of the repository.  It is described here by what it returns on a
well-formed document, which takes a reader of JSON text. -/

namespace gjson

/-- A JSON value.  A number keeps its text, an array and an object keep the
text they were read from (`Result.Raw`), a string holds its unescaped
content, and an object lists its members in the order of the text, repeated
names included. -/
inductive Value where
  | null
  | bool (b : Bool)
  | number (raw : String)
  | string (s : String)
  | array (raw : String) (elems : List Value)
  | object (raw : String) (members : List (String × Value))

/-- JSON white space. -/
def isWs (c : Char) : Bool :=
  c = ' ' || c = '\t' || c = '\n' || c = '\r'

/-- The text after its leading white space. -/
def skipWs : List Char → List Char
  | [] => []
  | c :: cs => if isWs c then skipWs cs else c :: cs

/-- The value of a hexadecimal digit. -/
def hexVal (c : Char) : Option Nat :=
  if '0' ≤ c ∧ c ≤ '9' then some (c.toNat - '0'.toNat)
  else if 'a' ≤ c ∧ c ≤ 'f' then some (c.toNat - 'a'.toNat + 10)
  else if 'A' ≤ c ∧ c ≤ 'F' then some (c.toNat - 'A'.toNat + 10)
  else none

/-- Four hexadecimal digits: their value and the text after them. -/
def hex4 : List Char → Option (Nat × List Char)
  | a :: b :: c :: d :: rest =>
    match hexVal a, hexVal b, hexVal c, hexVal d with
    | some x, some y, some z, some t => some (((x * 16 + y) * 16 + z) * 16 + t, rest)
    | _, _, _, _ => none
  | _ => none

/-- `utf16.IsSurrogate`. -/
def isSurrogate (u : Nat) : Bool := 0xD800 ≤ u && u < 0xE000

/-- `utf16.DecodeRune`: the code point of a surrogate pair, U+FFFD for two
code units that are no pair. -/
def decodeRune (r1 r2 : Nat) : Char :=
  if 0xD800 ≤ r1 ∧ r1 < 0xDC00 ∧ 0xDC00 ≤ r2 ∧ r2 < 0xE000 then
    Char.ofNat ((r1 - 0xD800) * 1024 + (r2 - 0xDC00) + 0x10000)
  else Char.ofNat 0xFFFD

/-- The character a one-letter escape stands for. -/
def escapeChar (e : Char) : Option Char :=
  if e = '"' then some '"'
  else if e = '\\' then some '\\'
  else if e = '/' then some '/'
  else if e = 'b' then some (Char.ofNat 8)
  else if e = 'f' then some (Char.ofNat 12)
  else if e = 'n' then some '\n'
  else if e = 'r' then some '\r'
  else if e = 't' then some '\t'
  else none

/-- Puts a character in front of the content read so far. -/
def consChar (c : Char) (r : Option (List Char × List Char)) :
    Option (List Char × List Char) :=
  r.map fun p => (c :: p.1, p.2)

/-- The rest of a string after its opening quote: the unescaped content (as
`unescape` of gjson gives it: a `\u` escape of a surrogate takes a `\u` escape
that follows it as the second half of the pair) and the text after the
closing quote.  `none` when the text is no JSON string. -/
def stringBody : Nat → List Char → Option (List Char × List Char)
  | 0, _ => none
  | fuel + 1, cs =>
    match cs with
    | [] => none
    | c :: cs1 =>
      if c = '"' then some ([], cs1)
      else if c = '\\' then
        match cs1 with
        | [] => none
        | e :: cs2 =>
          if e = 'u' then
            match hex4 cs2 with
            | none => none
            | some (u, cs3) =>
              if isSurrogate u then
                match cs3 with
                | '\\' :: 'u' :: cs4 =>
                  match hex4 cs4 with
                  | none => none
                  | some (v, cs5) => consChar (decodeRune u v) (stringBody fuel cs5)
                | _ => consChar (Char.ofNat 0xFFFD) (stringBody fuel cs3)
              else consChar (Char.ofNat u) (stringBody fuel cs3)
          else
            match escapeChar e with
            | none => none
            | some d => consChar d (stringBody fuel cs2)
      else if c.toNat < 0x20 then none
      else consChar c (stringBody fuel cs1)

/-- The leading decimal digits of a text and the text after them. -/
def digits : List Char → List Char × List Char
  | [] => ([], [])
  | c :: cs =>
    if c.isDigit then ((c :: (digits cs).1), (digits cs).2) else ([], c :: cs)

/-- The integer part of a number: `0`, or a digit from 1 to 9 and digits. -/
def intPart : List Char → Option (List Char × List Char)
  | [] => none
  | c :: cs =>
    if c = '0' then some (['0'], cs)
    else if c.isDigit then some (c :: (digits cs).1, (digits cs).2)
    else none

/-- The optional fraction: a point and at least one digit. -/
def fracPart : List Char → Option (List Char × List Char)
  | '.' :: cs =>
    match digits cs with
    | ([], _) => none
    | (ds, rest) => some ('.' :: ds, rest)
  | cs => some ([], cs)

/-- The optional exponent: `e` or `E`, an optional sign, at least one digit. -/
def expPart : List Char → Option (List Char × List Char)
  | [] => some ([], [])
  | c :: cs =>
    if c = 'e' ∨ c = 'E' then
      match cs with
      | [] => none
      | s :: cs1 =>
        if s = '+' ∨ s = '-' then
          match digits cs1 with
          | ([], _) => none
          | (ds, rest) => some (c :: s :: ds, rest)
        else
          match digits (s :: cs1) with
          | ([], _) => none
          | (ds, rest) => some (c :: ds, rest)
    else some ([], c :: cs)

/-- A number: its text and the text after it. -/
def number (cs : List Char) : Option (List Char × List Char) :=
  let signed := match cs with
    | '-' :: cs1 => (['-'], cs1)
    | _ => ([], cs)
  match intPart signed.2 with
  | none => none
  | some (i, cs2) =>
    match fracPart cs2 with
    | none => none
    | some (f, cs3) =>
      match expPart cs3 with
      | none => none
      | some (e, cs4) => some (signed.1 ++ i ++ f ++ e, cs4)

/-- The text after the word `word`, when the text starts with it. -/
def literal (word : List Char) (cs : List Char) : Option (List Char) :=
  if word.isPrefixOf cs then some (cs.drop word.length) else none

/-- The part of `cs` read when `rest` is what is left of it. -/
def consumed (cs rest : List Char) : String :=
  String.mk (cs.take (cs.length - rest.length))

mutual

/-- A value at the start of the text, and the text after it. -/
def value : Nat → List Char → Option (Value × List Char)
  | 0, _ => none
  | fuel + 1, cs =>
    match cs with
    | [] => none
    | c :: rest =>
      if c = '"' then
        (stringBody (rest.length + 1) rest).map fun r => (.string (String.mk r.1), r.2)
      else if c = '[' then
        match skipWs rest with
        | ']' :: rest1 => some (.array (consumed cs rest1) [], rest1)
        | cs1 =>
          (elems fuel cs1).map fun r => (.array (consumed cs r.2) r.1, r.2)
      else if c = '{' then
        match skipWs rest with
        | '}' :: rest1 => some (.object (consumed cs rest1) [], rest1)
        | cs1 =>
          (members fuel cs1).map fun r => (.object (consumed cs r.2) r.1, r.2)
      else if c = 't' then (literal "true".toList cs).map fun r => (.bool true, r)
      else if c = 'f' then (literal "false".toList cs).map fun r => (.bool false, r)
      else if c = 'n' then (literal "null".toList cs).map fun r => (.null, r)
      else (number cs).map fun r => (.number (String.mk r.1), r.2)

/-- The elements of a non-empty array after `[`, up to and including `]`. -/
def elems : Nat → List Char → Option (List Value × List Char)
  | 0, _ => none
  | fuel + 1, cs =>
    match value fuel cs with
    | none => none
    | some (v, rest) =>
      match skipWs rest with
      | ',' :: rest1 => (elems fuel (skipWs rest1)).map fun r => (v :: r.1, r.2)
      | ']' :: rest1 => some ([v], rest1)
      | _ => none

/-- The members of a non-empty object after `{`, up to and including `}`. -/
def members : Nat → List Char → Option (List (String × Value) × List Char)
  | 0, _ => none
  | fuel + 1, cs =>
    match cs with
    | '"' :: cs1 =>
      match stringBody (cs1.length + 1) cs1 with
      | none => none
      | some (k, rest) =>
        match skipWs rest with
        | ':' :: rest1 =>
          match value fuel (skipWs rest1) with
          | none => none
          | some (v, rest2) =>
            match skipWs rest2 with
            | ',' :: rest3 =>
              (members fuel (skipWs rest3)).map fun r => ((String.mk k, v) :: r.1, r.2)
            | '}' :: rest3 => some ([(String.mk k, v)], rest3)
            | _ => none
        | _ => none
    | _ => none

end

/-- The document a text is, when it is well-formed JSON: one value with
white space around it.  Each call of the reader consumes a character or is
followed by one that does, so twice the length of the text is fuel enough. -/
def parse (data : String) : Option Value :=
  match value (2 * data.length + 2) (skipWs data.toList) with
  | some (v, rest) => if skipWs rest = [] then some v else none
  | none => none

end gjson

/-! ## `gjson.GetBytes` and `Result.String` -/

namespace gjson

/-- The `Type` of a `Result` (`Type` is a reserved word here). -/
inductive Kind where
  | Null
  | False
  | Number
  | String
  | True
  | JSON
deriving DecidableEq, Repr

/-- A `Result`: its type, the raw text of the value and, for a string, its
unescaped content.  (`Num`, the number as a `float64`, is left out: see
`Unmodelled.formatNumber`.) -/
structure Result where
  Kind : Kind
  Raw : String
  Str : String
deriving DecidableEq, Repr

/-- The zero `Result`, which a path that leads nowhere gives. -/
def Result.zero : Result := { Kind := .Null, Raw := "", Str := "" }

/-- What the library does where this description of it stops. -/
structure Unmodelled where
  /-- The text `Result.String()` gives for a number whose raw text `raw` is
  not an optional `-` and at most fifteen digits:
  `strconv.FormatFloat(t.Num, 'f', -1, 64)` or, in the later versions of the
  library, `raw` itself when it is an integer.  Floating point is not
  modelled. -/
  formatNumber : String → String
  /-- The result of `GetBytes(data, path)` for a text `data` that holds a
  `{` or a `[` and is not a well-formed document with an object or an array
  at its top: gjson does not validate its input and returns some `Result`. -/
  other : String → String → Result

/-- Tells whether the raw text of a number is an optional `-` and at most
fifteen digits: an integer that a `float64` holds exactly, so that
`strconv.FormatFloat(t.Num, 'f', -1, 64)` is the raw text itself. -/
def isShortInteger (raw : String) : Bool :=
  match raw.toList with
  | '-' :: ds => ds.all Char.isDigit && decide (ds.length ≤ 15)
  | ds => ds.all Char.isDigit && decide (ds.length ≤ 15)

/-- `Result.String()`: `""` for `Null`, the words `false` and `true`, the
text of a number, the content of a string, the raw text of an object or an
array. -/
def Result.String (lib : Unmodelled) (t : Result) : String :=
  match t.Kind with
  | .Null => ""
  | .False => "false"
  | .Number => if isShortInteger t.Raw then t.Raw else lib.formatNumber t.Raw
  | .String => t.Str
  | .JSON => t.Raw
  | .True => "true"

/-- The `Result` gjson builds for a value it has found.  (`Raw` of a string,
its quoted text, is not kept: `String()` does not read it.) -/
def Result.ofValue : Value → Result
  | .null => { Kind := .Null, Raw := "null", Str := "" }
  | .bool true => { Kind := .True, Raw := "true", Str := "" }
  | .bool false => { Kind := .False, Raw := "false", Str := "" }
  | .number raw => { Kind := .Number, Raw := raw, Str := "" }
  | .string s => { Kind := .String, Raw := "", Str := s }
  | .array raw _ => { Kind := .JSON, Raw := raw, Str := "" }
  | .object raw _ => { Kind := .JSON, Raw := raw, Str := "" }

/-- The components of a path without wildcards, modifiers or escapes, such
as `images.0.copyright`: the text between the dots. -/
def pathParts (path : String) : List String :=
  (path.toList.splitOn '.').map String.mk

/-- `parseUint`: the number a path component of digits stands for. -/
def parseUint (part : String) : Option Nat :=
  if part.toList ≠ [] ∧ part.toList.all Char.isDigit then
    some (part.toList.foldl (fun n c => 10 * n + (c.toNat - '0'.toNat)) 0)
  else none

/-- The value a path leads to.  In an object (`parseObject`) the members are
tried in order: a member whose name is the component is the value looked for
when the path ends there, is searched with the rest of the path when it is an
object or an array, and the search goes on with the later members when that
fails.  In an array (`parseArray`) the component is the index of the
element. -/
def get : List String → Value → Option Value
  | [], v => some v
  | part :: more, .object _ members =>
    members.findSome? fun kv => if kv.1 = part then get more kv.2 else none
  | part :: more, .array _ elems =>
    match parseUint part with
    | none => none
    | some n =>
      match elems.get? n with
      | none => none
      | some v => get more v
  | _ :: _, _ => none

/-- The `Result` of a path in a document. -/
def getResult (path : String) (doc : Value) : Result :=
  match get (pathParts path) doc with
  | some v => Result.ofValue v
  | none => Result.zero

/-- `gjson.GetBytes(data, path)` for a path without wildcards, modifiers or
escapes.  `Get` looks for the first `{` or `[` of the text and reads an object
or an array from there: a text with neither gives the zero `Result`, and a
well-formed document whose top is an object or an array gives what the path
leads to. -/
def GetBytes (lib : Unmodelled) (data path : String) : Result :=
  match parse data with
  | some (.object raw members) => getResult path (.object raw members)
  | some (.array raw elems) => getResult path (.array raw elems)
  | _ =>
    if data.toList.all (fun c => c ≠ '\x7b' ∧ c ≠ '[') then Result.zero
    else lib.other data path

end gjson

/-! ## The workflow -/

/-- The struct `BingContent`. -/
structure BingContent where
  Description : String
  ImageURL : String
deriving DecidableEq, Repr

namespace weiboShareClient

/-- `getBingContent`: one `GET`, the body read to its end, and the two
fields taken out of it with gjson. -/
def getBingContent (w : weiboShareClient) (lib : gjson.Unmodelled) (log : List Request) :
    Except GoError BingContent × List Request :=
  match w.Get log LatestBingContent with
  | (.error err, log) => (.error err, log)
  | (.ok response, log) =>
    match ioReadAll response.Body with
    | .error err => (.error err, log)
    | .ok data =>
      let description := (gjson.GetBytes lib data "images.0.copyright").String lib
      let imageURL := (gjson.GetBytes lib data "images.0.url").String lib
      (.ok { Description := description, ImageURL := BingBase ++ imageURL }, log)

/-- `shareImageFromBing`. -/
def shareImageFromBing (w : weiboShareClient) (lib : gjson.Unmodelled) (boundary : String)
    (log : List Request) : Option GoError × List Request :=
  match w.getBingContent lib log with
  | (.error err, log) => (some err, log)
  | (.ok bingContent, log) =>
    match w.Get log bingContent.ImageURL with
    | (.error err, log) => (some err, log)
    | (.ok response, log) =>
      let reader := bufioNewReader response.Body
      let r := w.SharePicture boundary log bingContent.Description reader
      (r.err, r.calls)

end weiboShareClient

/-- How the process ends: its exit status, the lines it logs, and the HTTP
calls it made. -/
structure Exit where
  status : Nat
  logged : List String
  calls : List Request
deriving DecidableEq, Repr

/-- `main`, after `flag.Parse()` has stored the values of `-TOKEN` and
`-SOURCE` (`""` for a flag that is not given).  `log.Fatalln` logs its
arguments and exits with status 1. -/
def main (DefaultClient : HTTPClient) (lib : gjson.Unmodelled) (boundary : String)
    (AccessToken Source : String) : Exit :=
  if AccessToken = "" then
    { status := 1, logged := ["TOKEN cannot be empty."], calls := [] }
  else if Source = "" then
    { status := 1, logged := ["SOURCE cannot be empty."], calls := [] }
  else
    let client := NewWeiboShareClient DefaultClient AccessToken Source
    match client.shareImageFromBing lib boundary [] with
    | (some err, calls) => { status := 1, logged := [err.msg], calls := calls }
    | (none, calls) => { status := 0, logged := ["success"], calls := calls }

/-! ## Vocabulary of the statements -/

/-- The bytes of a multipart body with a `status` field and a `pic` file, up
to and including the file content: the layout RFC 7578 gives a form with the
field `status` of value `status` and the file `pic` of content `pic`. -/
def multipartOpen (boundary status pic : String) : String :=
  "--" ++ boundary ++ "\r\n"
    ++ "Content-Disposition: form-data; name=\"status\"\r\n"
    ++ "\r\n"
    ++ status
    ++ "\r\n--" ++ boundary ++ "\r\n"
    ++ "Content-Disposition: form-data; name=\"pic\"; filename=\"pic\"\r\n"
    ++ "Content-Type: application/octet-stream\r\n"
    ++ "\r\n"
    ++ pic

/-- The complete multipart body: `multipartOpen` and the closing delimiter. -/
def multipartClosed (boundary status pic : String) : String :=
  multipartOpen boundary status pic ++ "\r\n--" ++ boundary ++ "--\r\n"

/-- The request `ShareText` is expected to issue. -/
def textRequest (w : weiboShareClient) (text : String) : Request :=
  { Method := "POST", URL := "https://api.weibo.com/2/statuses/share.json",
    Header := [("Authorization", "OAuth2 " ++ w.accessToken),
               ("Content-Type", "application/x-www-form-urlencoded")],
    Body := "status=" ++ text ++ w.sourceURL }

/-- The request `SharePicture` is expected to issue for the image `pic`. -/
def pictureRequest (w : weiboShareClient) (boundary text pic : String) : Request :=
  { Method := "POST", URL := "https://api.weibo.com/2/statuses/share.json",
    Header := [("Authorization", "OAuth2 " ++ w.accessToken),
               ("Content-Type", (multipart.NewWriter boundary).FormDataContentType)],
    Body := multipartClosed boundary (text ++ w.sourceURL) pic }

/-- The request `getBingContent` is expected to issue. -/
def metadataRequest : Request :=
  { Method := "GET",
    URL := "https://cn.bing.com/HPImageArchive.aspx?format=js&idx=0&n=1&mkt=zh-CN",
    Header := [], Body := "" }

/-- The request `shareImageFromBing` is expected to issue for the image. -/
def imageRequest (imageURL : String) : Request :=
  { Method := "GET", URL := imageURL, Header := [], Body := "" }

/-- The field `field` of `images[0]` is missing from an object with the
members `members`: there is no member `images`, or `images` is the empty
array, or the object `images[0]` has no member `field`, or that member is
`null`. -/
def fieldMissing (members : List (String × gjson.Value)) (field : String) : Prop :=
  members.lookup "images" = none
    ∨ (∃ raw, members.lookup "images" = some (.array raw []))
    ∨ (∃ raw raw0 fields rest,
        members.lookup "images" = some (.array raw (.object raw0 fields :: rest))
          ∧ (fields.lookup field = none ∨ fields.lookup field = some .null))

/-- The `BingContent` that `getBingContent` makes of the body `data`. -/
def bingContentOf (lib : gjson.Unmodelled) (data : String) : BingContent :=
  { Description := (gjson.GetBytes lib data "images.0.copyright").String lib,
    ImageURL := "https://cn.bing.com" ++ (gjson.GetBytes lib data "images.0.url").String lib }

/-- The error with which the call `req`, issued after the calls `before`,
fails, if it fails: the transport error; or, for a `GET`, the error of
reading the body of the response; or, for the upload, the error
`handleResponse` makes of the response. -/
def callError (w : weiboShareClient) (before : List Request) (req : Request) :
    Option GoError :=
  match w.client before req with
  | .error e => some e
  | .ok response =>
    if req.Method = "GET" then response.Body.err else w.handleResponse response

/-- A stub of the HTTP client for the three calls of the workflow: the first
call gets the status 200 and the body `metadata`, the second the status 200
and the body `image`, every later call the status `status` and the body
`answer`. -/
def stubClient (metadata image : String) (status : Int) (answer : String) : HTTPClient :=
  fun before _ =>
    match before.length with
    | 0 => .ok ⟨200, ⟨metadata, none⟩⟩
    | 1 => .ok ⟨200, ⟨image, none⟩⟩
    | _ => .ok ⟨status, ⟨answer, none⟩⟩

/-- A stub of the HTTP client whose second call, the download of the image,
fails with the transport error `e`. -/
def stubClientNoImage (metadata : String) (e : GoError) : HTTPClient :=
  fun before _ =>
    match before.length with
    | 0 => .ok ⟨200, ⟨metadata, none⟩⟩
    | _ => .error e

/-- The document of the end-to-end scenario of the specification:
`{"images":[{"copyright":"Sunset over hills","url":"/img1.jpg"}]}`. -/
def sunsetDocument : String :=
  "\x7b\"images\":[\x7b\"copyright\":\"Sunset over hills\",\"url\":\"/img1.jpg\"\x7d]\x7d"

/-- An instance of the part of gjson that is left open. -/
def someLib : gjson.Unmodelled :=
  { formatNumber := fun raw => raw, other := fun _ _ => gjson.Result.zero }

/-! ## Lemmas on the share client -/

namespace weiboShareClient
open multipart

theorem escapeQuotes_status : escapeQuotes "status" = "status" := by decide

theorem escapeQuotes_pic : escapeQuotes "pic" = "pic" := by decide

/-- The buffer after the `status` field, the `pic` part header and the image
bytes have been written. -/
theorem writer_open (boundary status : String) (reader : Reader) :
    ioCopy (((NewWriter boundary).WriteField StatusKey status).CreateFormFile PicKey "pic")
        reader
      = ({ w := multipartOpen boundary status reader.data, boundary := boundary,
           lastpart := true }, reader.err) := by
  simp [ioCopy, Writer.Write, Writer.WriteField, Writer.CreateFormFile,
    Writer.CreateFormField, Writer.CreatePart, NewWriter, StatusKey, PicKey,
    escapeQuotes_status, escapeQuotes_pic, multipartOpen, String.ext_iff, String.data_append]

/-- `ShareText` issues `textRequest` and returns the transport error or what
`handleResponse` makes of the response. -/
theorem ShareText_eq (w : weiboShareClient) (log : List Request) (text : String) :
    w.ShareText log text
      = { err := match w.client log (textRequest w text) with
                 | .error e => some e
                 | .ok response => w.handleResponse response,
          calls := log ++ [textRequest w text],
          body := "status=" ++ text ++ w.sourceURL } := by
  simp only [ShareText, Do, setAuth, textRequest, ShareStatus, Host, StatusKey, Urlencoded,
    List.nil_append, List.singleton_append, String.reduceAppend]
  split <;> rename_i h <;> simp only [Prod.mk.injEq] at h <;> obtain ⟨h1, h2⟩ := h <;>
    subst h2 <;> rw [h1]

/-- `SharePicture` returns the image reader's error without issuing a call;
otherwise it issues `pictureRequest` and returns the transport error or what
`handleResponse` makes of the response. -/
theorem SharePicture_eq (w : weiboShareClient) (boundary : String) (log : List Request)
    (text : String) (reader : Reader) :
    w.SharePicture boundary log text reader
      = match reader.err with
        | some e =>
          { err := some e, calls := log,
            body := multipartOpen boundary (text ++ w.sourceURL) reader.data }
        | none =>
          { err := match w.client log (pictureRequest w boundary text reader.data) with
                   | .error e => some e
                   | .ok response => w.handleResponse response,
            calls := log ++ [pictureRequest w boundary text reader.data],
            body := multipartClosed boundary (text ++ w.sourceURL) reader.data } := by
  simp only [SharePicture, writer_open]
  rcases reader with ⟨data, _ | e⟩
  · simp only [Do, setAuth, pictureRequest, ShareStatus, Host, Writer.Close,
      Writer.FormDataContentType, NewWriter, multipartClosed, List.nil_append,
      List.singleton_append, String.reduceAppend, String.append_assoc]
    simp only [List.filter, show (decide ("Authorization" ≠ "Content-Type")) = true by decide,
      List.cons_append, List.nil_append]
    split <;> rename_i h <;> simp only [Prod.mk.injEq] at h <;> obtain ⟨h1, h2⟩ := h <;>
      subst h2 <;> rw [h1]
  · rfl

end weiboShareClient

namespace weiboShareClient

/-- The size of a multipart body is the size of the image and the size of
the body of the empty image. -/
theorem multipartClosed_length (boundary status pic : String) :
    (multipartClosed boundary status pic).length
      = pic.length + (multipartClosed boundary status "").length := by
  simp only [multipartClosed, multipartOpen, String.length_append]
  have h0 : "".length = 0 := rfl
  omega

/-- The image is a contiguous part of the multipart body. -/
theorem multipartClosed_infix (boundary status pic : String) :
    pic.toList <:+: (multipartClosed boundary status pic).toList := by
  refine ⟨("--" ++ boundary ++ "\r\n"
    ++ "Content-Disposition: form-data; name=\"status\"\r\n"
    ++ "\r\n"
    ++ status
    ++ "\r\n--" ++ boundary ++ "\r\n"
    ++ "Content-Disposition: form-data; name=\"pic\"; filename=\"pic\"\r\n"
    ++ "Content-Type: application/octet-stream\r\n"
    ++ "\r\n").toList, ("\r\n--" ++ boundary ++ "--\r\n").toList, ?_⟩
  simp only [multipartClosed, multipartOpen, String.toList, String.data_append,
    List.append_assoc]

end weiboShareClient

/-! ## Lemmas on the fetcher -/

namespace gjson

theorem pathParts_copyright :
    pathParts "images.0.copyright" = ["images", "0", "copyright"] := by decide

theorem pathParts_url : pathParts "images.0.url" = ["images", "0", "url"] := by decide

theorem parseUint_zero : parseUint "0" = some 0 := by decide

/-- The first member of the name looked for decides the search when the
rest of the path leads somewhere from it. -/
theorem findSome_of_lookup {f : Value → Option Value} {k : String} {v : Value} :
    ∀ (ms : List (String × Value)), ms.lookup k = some v → (f v).isSome = true →
      ms.findSome? (fun kv => if kv.1 = k then f kv.2 else none) = f v
  | [], h, _ => by simp at h
  | (k1, v1) :: tl, h, hv => by
    by_cases hk : k1 = k
    · subst hk
      simp only [List.lookup, beq_self_eq_true, Option.some.injEq] at h
      subst h
      rcases hfv : f v1 with _ | x
      · simp [hfv] at hv
      · simp [List.findSome?, hfv]
    · have hk2 : (k == k1) = false := by
        simp only [beq_eq_false_iff_ne, ne_eq]
        exact fun h2 => hk h2.symm
      simp only [List.lookup, hk2] at h
      simp only [List.findSome?, hk, if_false]
      exact findSome_of_lookup tl h hv

/-- No member of the name looked for: the search finds nothing. -/
theorem findSome_of_lookup_none {f : Value → Option Value} {k : String} :
    ∀ (ms : List (String × Value)), ms.lookup k = none →
      ms.findSome? (fun kv => if kv.1 = k then f kv.2 else none) = none
  | [], _ => rfl
  | (k1, v1) :: tl, h => by
    by_cases hk : k1 = k
    · subst hk
      simp [List.lookup] at h
    · have hk2 : (k == k1) = false := by
        simp only [beq_eq_false_iff_ne, ne_eq]
        exact fun h2 => hk h2.symm
      simp only [List.lookup, hk2] at h
      simp only [List.findSome?, hk, if_false]
      exact findSome_of_lookup_none tl h

/-- When the names are distinct, a name that is looked up has no member
before it or after it of that name. -/
theorem lookup_none_of_nodup {k : String} {v : Value} :
    ∀ (ms : List (String × Value)), (ms.map Prod.fst).Nodup → ms.lookup k = some v →
      ∃ pre post, ms = pre ++ (k, v) :: post ∧ pre.lookup k = none ∧ post.lookup k = none
  | [], _, h => by simp at h
  | (k1, v1) :: tl, hnd, h => by
    simp only [List.map_cons, List.nodup_cons, List.mem_map, Prod.exists,
      exists_and_right, exists_eq_right, not_exists] at hnd
    by_cases hk : k1 = k
    · subst hk
      simp only [List.lookup, beq_self_eq_true, Option.some.injEq] at h
      subst h
      refine ⟨[], tl, rfl, rfl, ?_⟩
      rcases hl : tl.lookup k1 with _ | x
      · rfl
      · obtain ⟨l1, l2, h1, _⟩ := List.lookup_eq_some_iff.1 hl
        exact absurd (by rw [h1]; simp) (hnd.1 x)
    · have hk2 : (k == k1) = false := by
        simp only [beq_eq_false_iff_ne, ne_eq]
        exact fun h2 => hk h2.symm
      simp only [List.lookup, hk2] at h
      obtain ⟨pre, post, h1, h2, h3⟩ := lookup_none_of_nodup tl hnd.2 h
      refine ⟨(k1, v1) :: pre, post, by rw [h1]; rfl, ?_, h3⟩
      simp only [List.lookup, hk2, h2]

/-- When the names are distinct, the member of the name looked for is the
only one the search tries. -/
theorem findSome_of_lookup_nodup {f : Value → Option Value} {k : String} {v : Value}
    (ms : List (String × Value)) (hnd : (ms.map Prod.fst).Nodup)
    (h : ms.lookup k = some v) :
    ms.findSome? (fun kv => if kv.1 = k then f kv.2 else none) = f v := by
  obtain ⟨pre, post, h1, h2, h3⟩ := lookup_none_of_nodup ms hnd h
  subst h1
  rw [List.findSome?_append, findSome_of_lookup_none pre h2]
  simp only [Option.none_or, List.findSome?, if_true]
  rcases f v with _ | x
  · exact findSome_of_lookup_none post h3
  · rfl

end gjson

namespace gjson

/-- The field `field` of `images[0]` as `GetBytes` finds it in a document
whose first member `images` is an array that starts with an object. -/
theorem GetBytes_field (lib : Unmodelled) (data path field raw raw1 raw0 : String)
    (members fields : List (String × Value)) (rest : List Value) (v : Value)
    (hpath : pathParts path = ["images", "0", field])
    (hdoc : parse data = some (.object raw members))
    (himages : members.lookup "images" = some (.array raw1 (.object raw0 fields :: rest)))
    (hfield : fields.lookup field = some v) :
    GetBytes lib data path = Result.ofValue v := by
  have hinner : get ["0", field] (.array raw1 (.object raw0 fields :: rest)) = some v := by
    simp only [get, parseUint_zero, List.get?_cons_zero]
    exact findSome_of_lookup fields hfield rfl
  have houter : get ["images", "0", field] (.object raw members) = some v := by
    simp only [get]
    rw [findSome_of_lookup members himages (by rw [hinner]; rfl), hinner]
  simp only [GetBytes, hdoc, getResult, hpath, houter]

/-- A missing field of `images[0]` gives `""`. -/
theorem GetBytes_missing (lib : Unmodelled) (data path field raw : String)
    (members : List (String × Value))
    (hpath : pathParts path = ["images", "0", field])
    (hdoc : parse data = some (.object raw members))
    (hnames : (members.map Prod.fst).Nodup)
    (hmissing : CronWeather.fieldMissing members field) :
    (GetBytes lib data path).String lib = "" := by
  have hres : GetBytes lib data path
      = match get ["images", "0", field] (.object raw members) with
        | some v => Result.ofValue v
        | none => Result.zero := by
    simp only [GetBytes, hdoc, getResult, hpath]
  rw [hres]
  rcases hmissing with h | ⟨raw1, h⟩ | ⟨raw1, raw0, fields, rest, h, hf | hf⟩
  · simp only [get, findSome_of_lookup_none members h]
    rfl
  · simp only [get]
    rw [findSome_of_lookup_nodup members hnames h]
    simp only [get, parseUint_zero, List.get?_nil]
    rfl
  · simp only [get]
    rw [findSome_of_lookup_nodup members hnames h]
    simp only [get, parseUint_zero, List.get?_cons_zero, findSome_of_lookup_none fields hf]
    rfl
  · simp only [get]
    rw [findSome_of_lookup_nodup members hnames h]
    simp only [get, parseUint_zero, List.get?_cons_zero]
    rw [findSome_of_lookup (f := some) fields hf rfl]
    rfl

/-- A text without `{` and `[` gives the zero `Result`. -/
theorem GetBytes_no_bracket (lib : Unmodelled) (data path : String)
    (h : data.toList.all (fun c => c ≠ '\x7b' ∧ c ≠ '[') = true) (hp : parse data = none) :
    GetBytes lib data path = Result.zero := by
  simp only [GetBytes, hp, h, if_true]

end gjson

namespace weiboShareClient

/-- `getBingContent` issues `metadataRequest`; it fails with the transport
error or the error of reading the body, and otherwise returns the two fields
gjson takes out of the body. -/
theorem getBingContent_eq (w : weiboShareClient) (lib : gjson.Unmodelled)
    (log : List Request) :
    w.getBingContent lib log
      = (match w.client log metadataRequest with
         | .error e => .error e
         | .ok response =>
           match response.Body.err with
           | some e => .error e
           | none =>
             .ok { Description :=
                     (gjson.GetBytes lib response.Body.data "images.0.copyright").String lib,
                   ImageURL := "https://cn.bing.com"
                     ++ (gjson.GetBytes lib response.Body.data "images.0.url").String lib },
         log ++ [metadataRequest]) := by
  have hreq : ({ Method := "GET", URL := LatestBingContent, Header := [], Body := "" } :
      Request) = metadataRequest := by
    simp [metadataRequest, LatestBingContent, BingBase]
  simp only [getBingContent, Get, Do, hreq, BingBase]
  rcases w.client log metadataRequest with e | ⟨status, data, _ | e⟩
  · rfl
  · rfl
  · rfl

end weiboShareClient

/-! ## Lemmas on the workflow -/

namespace weiboShareClient

/-- `shareImageFromBing` step by step: the metadata `GET`, the image `GET`,
the upload; it stops at the first of them that fails. -/
theorem shareImageFromBing_eq (w : weiboShareClient) (lib : gjson.Unmodelled)
    (boundary : String) (log : List Request) :
    w.shareImageFromBing lib boundary log
      = match w.client log metadataRequest with
        | .error e => (some e, log ++ [metadataRequest])
        | .ok r1 =>
          match r1.Body.err with
          | some e => (some e, log ++ [metadataRequest])
          | none =>
            match w.client (log ++ [metadataRequest])
                (imageRequest (bingContentOf lib r1.Body.data).ImageURL) with
            | .error e =>
              (some e, log ++ [metadataRequest,
                imageRequest (bingContentOf lib r1.Body.data).ImageURL])
            | .ok r2 =>
              match r2.Body.err with
              | some e =>
                (some e, log ++ [metadataRequest,
                  imageRequest (bingContentOf lib r1.Body.data).ImageURL])
              | none =>
                (match w.client
                    (log ++ [metadataRequest,
                      imageRequest (bingContentOf lib r1.Body.data).ImageURL])
                    (pictureRequest w boundary (bingContentOf lib r1.Body.data).Description
                      r2.Body.data) with
                  | .error e => some e
                  | .ok r3 => w.handleResponse r3,
                 log ++ [metadataRequest,
                   imageRequest (bingContentOf lib r1.Body.data).ImageURL,
                   pictureRequest w boundary (bingContentOf lib r1.Body.data).Description
                     r2.Body.data]) := by
  simp only [shareImageFromBing, getBingContent_eq]
  rcases w.client log metadataRequest with e | ⟨s1, d1, _ | e⟩
  · rfl
  · have himg : ∀ u : String, ({ Method := "GET", URL := u, Header := [], Body := "" } :
        Request) = imageRequest u := fun _ => rfl
    simp only [Get, Do, bufioNewReader, SharePicture_eq, himg, bingContentOf,
      List.append_assoc, List.singleton_append, List.cons_append, List.nil_append]
    rcases w.client (log ++ [metadataRequest])
        (imageRequest ("https://cn.bing.com"
          ++ gjson.Result.String lib (gjson.GetBytes lib d1 "images.0.url")))
      with e | ⟨s2, d2, _ | e⟩
    · rfl
    · simp only [List.append_assoc, List.cons_append, List.nil_append]
    · rfl
  · rfl

end weiboShareClient

namespace multipart

/-- The content type of a multipart body is not that of a URL-encoded form. -/
theorem FormDataContentType_ne_urlencoded (mw : Writer) :
    mw.FormDataContentType ≠ "application/x-www-form-urlencoded" := by
  intro h
  have h2 := congrArg String.data h
  simp [Writer.FormDataContentType, String.data_append] at h2

end multipart

namespace weiboShareClient

/-- A text-only share request is none of the three requests of the workflow. -/
theorem textRequest_not_mem (w : weiboShareClient) (boundary text imageURL caption image : String)
    (calls : List Request)
    (h : calls <+: [metadataRequest, imageRequest imageURL,
      pictureRequest w boundary caption image]) :
    textRequest w text ∉ calls := by
  intro hmem
  have hmem2 := h.subset hmem
  simp only [List.mem_cons, List.mem_singleton, List.not_mem_nil, or_false] at hmem2
  rcases hmem2 with h1 | h1 | h1
  · have := congrArg Request.Method h1
    simp [textRequest, metadataRequest] at this
  · have := congrArg Request.Method h1
    simp [textRequest, imageRequest] at this
  · have := congrArg Request.Header h1
    simp only [textRequest, pictureRequest, List.cons.injEq, Prod.mk.injEq, true_and,
      and_true] at this
    exact multipart.FormDataContentType_ne_urlencoded _ this.symm

end weiboShareClient

namespace weiboShareClient

/-- The workflow issues at least one call. -/
theorem shareImageFromBing_calls_ne_nil (w : weiboShareClient) (lib : gjson.Unmodelled)
    (boundary : String) (log : List Request) :
    (w.shareImageFromBing lib boundary log).2 ≠ [] := by
  rw [shareImageFromBing_eq]
  rcases w.client log metadataRequest with e1 | ⟨s1, d1, _ | e1⟩
  · simp
  · simp only
    rcases w.client (log ++ [metadataRequest])
        (imageRequest (bingContentOf lib d1).ImageURL) with e2 | ⟨s2, d2, _ | e2⟩ <;> simp
  · simp

end weiboShareClient

/-! ## Lemmas on reading a multipart body back -/

namespace multipart

/-- Whether `pat` starts a text is decided by the first characters of the
text, as many as `pat` has. -/
theorem isPrefixOf_append_of_le :
    ∀ (pat l rest : List Char), pat.length ≤ l.length →
      pat.isPrefixOf (l ++ rest) = pat.isPrefixOf l
  | [], _, _, _ => by simp [List.isPrefixOf]
  | p :: ps, [], _, h => by simp at h
  | p :: ps, c :: cs, rest, h => by
    have ih := isPrefixOf_append_of_le ps cs rest (by simpa using h)
    simp only [List.cons_append, List.isPrefixOf, List.append_eq, ih]

/-- A text that starts with `pat` is split at its start. -/
theorem splitAtFirst_self (p : Char) (ps rest : List Char) :
    splitAtFirst (p :: ps) ((p :: ps) ++ rest) = some ([], rest) := by
  have h : (p :: ps).isPrefixOf ((p :: ps) ++ rest) = true :=
    List.isPrefixOf_iff_prefix.2 (List.prefix_append _ _)
  rw [List.cons_append] at h ⊢
  simp only [splitAtFirst, h, if_true]
  rw [← List.cons_append, List.drop_left]

/-- When `pat` occurs in `x ++ pat` at the end only, a text that starts with
`x ++ pat` is split after `x`. -/
theorem splitAtFirst_append (p : Char) (ps : List Char) :
    ∀ (x rest : List Char), splitAtFirst (p :: ps) (x ++ (p :: ps)) = some (x, []) →
      splitAtFirst (p :: ps) (x ++ (p :: ps) ++ rest) = some (x, rest)
  | [], rest, _ => by
    simpa using splitAtFirst_self p ps rest
  | c :: xs, rest, h => by
    have hlen : (p :: ps).length ≤ (c :: (xs ++ p :: ps)).length := by
      simp only [List.length_cons, List.length_append]
      omega
    rw [List.cons_append] at h
    by_cases hpre : (p :: ps).isPrefixOf (c :: (xs ++ p :: ps)) = true
    · simp [splitAtFirst, hpre] at h
    · rcases hsp : splitAtFirst (p :: ps) (xs ++ p :: ps) with _ | ⟨a, b⟩
      · simp [splitAtFirst, hpre, hsp] at h
      · simp only [splitAtFirst, hpre, hsp, Option.map_some', Option.some.injEq,
          Prod.mk.injEq, List.cons.injEq, true_and, Bool.false_eq_true, if_false] at h
        obtain ⟨ha, hb⟩ := h
        subst ha
        subst hb
        have hrec := splitAtFirst_append p ps a rest hsp
        have hpre2 : (p :: ps).isPrefixOf (c :: (a ++ p :: ps) ++ rest) = false := by
          rw [isPrefixOf_append_of_le _ _ _ hlen]
          exact Bool.eq_false_iff.2 hpre
        rw [List.cons_append, List.cons_append]
        rw [List.cons_append] at hpre2
        simp only [splitAtFirst, hpre2, hrec]
        rfl

end multipart

namespace multipart

/-- Reading back two parts that are laid out one after the other. -/
theorem readParts_two (b hdr1 hdr2 status pic : List Char) (n : Nat)
    (h1 : splitAtFirst ['\r', '\n', '\r', '\n'] (hdr1 ++ ['\r', '\n', '\r', '\n'])
      = some (hdr1, []))
    (h2 : splitAtFirst ['\r', '\n', '\r', '\n'] (hdr2 ++ ['\r', '\n', '\r', '\n'])
      = some (hdr2, []))
    (hs : splitAtFirst ('\r' :: '\n' :: '-' :: '-' :: b)
      (status ++ '\r' :: '\n' :: '-' :: '-' :: b) = some (status, []))
    (hp : splitAtFirst ('\r' :: '\n' :: '-' :: '-' :: b)
      (pic ++ '\r' :: '\n' :: '-' :: '-' :: b) = some (pic, [])) :
    readParts ('\r' :: '\n' :: '-' :: '-' :: b) (n + 2)
        (hdr1 ++ ['\r', '\n', '\r', '\n']
          ++ (status ++ ('\r' :: '\n' :: '-' :: '-' :: b)
            ++ ('\r' :: '\n' :: (hdr2 ++ ['\r', '\n', '\r', '\n']
              ++ (pic ++ ('\r' :: '\n' :: '-' :: '-' :: b) ++ ['-', '-', '\r', '\n'])))))
      = some [(String.mk hdr1, String.mk status), (String.mk hdr2, String.mk pic)] := by
  have e1 := splitAtFirst_append '\r' ['\n', '\r', '\n'] hdr1
    (status ++ ('\r' :: '\n' :: '-' :: '-' :: b)
      ++ ('\r' :: '\n' :: (hdr2 ++ ['\r', '\n', '\r', '\n']
        ++ (pic ++ ('\r' :: '\n' :: '-' :: '-' :: b) ++ ['-', '-', '\r', '\n'])))) h1
  have e2 := splitAtFirst_append '\r' ('\n' :: '-' :: '-' :: b) status
    ('\r' :: '\n' :: (hdr2 ++ ['\r', '\n', '\r', '\n']
      ++ (pic ++ ('\r' :: '\n' :: '-' :: '-' :: b) ++ ['-', '-', '\r', '\n']))) hs
  have e3 := splitAtFirst_append '\r' ['\n', '\r', '\n'] hdr2
    (pic ++ ('\r' :: '\n' :: '-' :: '-' :: b) ++ ['-', '-', '\r', '\n']) h2
  have e4 := splitAtFirst_append '\r' ('\n' :: '-' :: '-' :: b) pic
    ['-', '-', '\r', '\n'] hp
  simp only [readParts, e1, e2, e3, e4, Option.map_some']

end multipart

namespace multipart

set_option maxRecDepth 100000 in
/-- The characters of the complete multipart body. -/
theorem multipartClosed_toList (boundary status pic : String) :
    (CronWeather.multipartClosed boundary status pic).toList
      = '-' :: '-' :: (boundary.toList ++ ['\r', '\n'])
        ++ ("Content-Disposition: form-data; name=\"status\"".toList
            ++ ['\r', '\n', '\r', '\n']
          ++ (status.toList ++ ('\r' :: '\n' :: '-' :: '-' :: boundary.toList)
            ++ ('\r' :: '\n' ::
              ("Content-Disposition: form-data; name=\"pic\"; filename=\"pic\"\r\nContent-Type: application/octet-stream".toList
                ++ ['\r', '\n', '\r', '\n']
              ++ (pic.toList ++ ('\r' :: '\n' :: '-' :: '-' :: boundary.toList)
                ++ ['-', '-', '\r', '\n']))))) := by
  have k1 : ("--" : String).data = ['-', '-'] := rfl
  have k2 : ("\r\n" : String).data = ['\r', '\n'] := rfl
  have k3 : ("\r\n--" : String).data = ['\r', '\n', '-', '-'] := rfl
  have k4 : ("--\r\n" : String).data = ['-', '-', '\r', '\n'] := rfl
  have k5 : ("Content-Disposition: form-data; name=\"status\"\r\n" : String).data
      = ("Content-Disposition: form-data; name=\"status\"" : String).data ++ ['\r', '\n'] :=
    rfl
  have k6 : ("Content-Disposition: form-data; name=\"pic\"; filename=\"pic\"\r\n" : String).data
        ++ (("Content-Type: application/octet-stream\r\n" : String).data ++ ['\r', '\n'])
      = ("Content-Disposition: form-data; name=\"pic\"; filename=\"pic\"\r\nContent-Type: application/octet-stream" : String).data
        ++ ['\r', '\n', '\r', '\n'] := rfl
  simp only [CronWeather.multipartClosed, CronWeather.multipartOpen, String.toList,
    String.data_append, List.append_assoc, k1, k2, k3, k4, k5, List.cons_append,
    List.nil_append, k6]

end multipart

namespace multipart

set_option maxRecDepth 100000 in
/-- Reading the complete multipart body back gives the field `status` with
the value written and the file `pic` with the image, when the delimiter does
not occur in them. -/
theorem readForm_multipartClosed (boundary status pic : String)
    (hs : fresh boundary status) (hp : fresh boundary pic) :
    readForm boundary (CronWeather.multipartClosed boundary status pic)
      = some [("Content-Disposition: form-data; name=\"status\"", status),
          ("Content-Disposition: form-data; name=\"pic\"; filename=\"pic\"\r\nContent-Type: application/octet-stream",
            pic)] := by
  have hlen : ∃ n, (CronWeather.multipartClosed boundary status pic).length = n + 2 := by
    refine ⟨(CronWeather.multipartClosed boundary status pic).length - 2, ?_⟩
    have : 2 ≤ (CronWeather.multipartClosed boundary status pic).length := by
      simp only [String.length, ← String.toList.eq_1, multipartClosed_toList,
        List.length_cons, List.length_append]
      omega
    omega
  obtain ⟨n, hn⟩ := hlen
  have hfirst : ('-' :: '-' :: (boundary.toList ++ ['\r', '\n'])).isPrefixOf
      (CronWeather.multipartClosed boundary status pic).toList = true := by
    rw [multipartClosed_toList]
    exact List.isPrefixOf_iff_prefix.2 (List.prefix_append _ _)
  simp only [readForm, hfirst, if_true, hn]
  rw [multipartClosed_toList, List.drop_left]
  exact readParts_two boundary.toList _ _ status.toList pic.toList n rfl rfl hs hp

end multipart

/-! ## The share client: the form field, the form body, the response -/

namespace weiboShareClient

/-- C1: for every caption `text`, source suffix, boundary and image reader,
the buffer `SharePicture` builds is the delimiter line, the header of a form
field named `status`, an empty line, then exactly `text` followed by the
source suffix, then the next delimiter line (the `pic` part and, when the
image was read to its end, the closing delimiter follow); and the one request
`SharePicture` may issue carries this buffer as its body. -/
theorem SharePicture_status_field (w : weiboShareClient) (boundary : String)
    (log : List Request) (text : String) (reader : Reader) :
    (w.SharePicture boundary log text reader).body
        = "--" ++ boundary ++ "\r\n"
          ++ "Content-Disposition: form-data; name=\"status\"\r\n"
          ++ "\r\n"
          ++ (text ++ w.sourceURL)
          ++ "\r\n--" ++ boundary ++ "\r\n"
          ++ "Content-Disposition: form-data; name=\"pic\"; filename=\"pic\"\r\n"
          ++ "Content-Type: application/octet-stream\r\n"
          ++ "\r\n"
          ++ reader.data
          ++ (if reader.err = none then "\r\n--" ++ boundary ++ "--\r\n" else "")
      ∧ ((w.SharePicture boundary log text reader).calls = log
          ∨ ∃ req, (w.SharePicture boundary log text reader).calls = log ++ [req]
              ∧ req.Method = "POST"
              ∧ req.Body = (w.SharePicture boundary log text reader).body) := by
  rw [SharePicture_eq]
  rcases reader with ⟨data, _ | e⟩
  · refine ⟨?_, Or.inr ⟨pictureRequest w boundary text data, rfl, rfl, rfl⟩⟩
    simp [multipartClosed, multipartOpen, String.append_assoc]
  · refine ⟨?_, Or.inl rfl⟩
    simp [multipartOpen, String.append_assoc]

/-- C2, at the caption `Q&A` with the source suffix `src`: the body
`ShareText` posts is `status=Q&Asrc`, the caption is not percent-encoded, and
decoding the body as a URL-encoded form yields two keys, `status` with the
value `Q` and `Asrc` with the empty value, not the one key `status` with the
value `Q&Asrc`. -/
theorem ShareText_ampersand_splits_status :
    ((⟨fun _ _ => .ok ⟨200, ⟨"", none⟩⟩, "token", "src"⟩ : weiboShareClient).ShareText
        [] "Q&A").calls.map Request.Body = ["status=Q&Asrc"]
      ∧ url.ParseQuery "status=Q&Asrc" = ([("status", "Q"), ("Asrc", "")], false)
      ∧ url.ParseQuery "status=Q&Asrc" ≠ ([("status", "Q&Asrc")], false) := by
  refine ⟨?_, by decide, by decide⟩
  rw [ShareText_eq]
  rfl

/-- C3: a response whose status code is not 200 and whose body is read to its
end makes `handleResponse`, `ShareText` and `SharePicture` fail with the
error whose message is `failed to share text,response body:` followed by the
body; the body is a contiguous part of the message. -/
theorem non200_error_is_prefix_then_body (w : weiboShareClient) (response : Response)
    (hstatus : response.StatusCode ≠ 200) (hread : response.Body.err = none) :
    w.handleResponse response
        = some ⟨"failed to share text,response body:" ++ response.Body.data⟩
      ∧ response.Body.data.toList
          <:+: ("failed to share text,response body:" ++ response.Body.data).toList
      ∧ (∀ log text, w.client log (textRequest w text) = .ok response →
          (w.ShareText log text).err
            = some ⟨"failed to share text,response body:" ++ response.Body.data⟩)
      ∧ (∀ boundary log text pic,
          w.client log (pictureRequest w boundary text pic) = .ok response →
          (w.SharePicture boundary log text ⟨pic, none⟩).err
            = some ⟨"failed to share text,response body:" ++ response.Body.data⟩) := by
  have h : w.handleResponse response
      = some ⟨"failed to share text,response body:" ++ response.Body.data⟩ := by
    simp [handleResponse, hstatus, ioReadAll, hread]
  refine ⟨h, ?_, ?_, ?_⟩
  · exact ⟨"failed to share text,response body:".toList, [], by simp⟩
  · intro log text hc
    rw [ShareText_eq]
    simp only [hc, h]
  · intro boundary log text pic hc
    rw [SharePicture_eq]
    simp only [hc, h]

/-- C3 at the response 401 with the body `{"error":"invalid token"}`. -/
theorem non200_error_is_prefix_then_body_witness :
    ((401 : Int) ≠ 200 ∧ (⟨"\x7b\"error\":\"invalid token\"\x7d", none⟩ : Reader).err = none)
      ∧ (⟨fun _ _ => .ok ⟨401, ⟨"\x7b\"error\":\"invalid token\"\x7d", none⟩⟩,
            "token", "src"⟩ : weiboShareClient).handleResponse
          ⟨401, ⟨"\x7b\"error\":\"invalid token\"\x7d", none⟩⟩
        = some ⟨"failed to share text,response body:\x7b\"error\":\"invalid token\"\x7d"⟩
      ∧ ((⟨fun _ _ => .ok ⟨401, ⟨"\x7b\"error\":\"invalid token\"\x7d", none⟩⟩,
            "token", "src"⟩ : weiboShareClient).ShareText [] "hello").err
        = some ⟨"failed to share text,response body:\x7b\"error\":\"invalid token\"\x7d"⟩
      ∧ ((⟨fun _ _ => .ok ⟨401, ⟨"\x7b\"error\":\"invalid token\"\x7d", none⟩⟩,
            "token", "src"⟩ : weiboShareClient).SharePicture "b0" [] "hello"
            ⟨"image", none⟩).err
        = some ⟨"failed to share text,response body:\x7b\"error\":\"invalid token\"\x7d"⟩ :=
  have h := non200_error_is_prefix_then_body
    ⟨fun _ _ => .ok ⟨401, ⟨"\x7b\"error\":\"invalid token\"\x7d", none⟩⟩, "token", "src"⟩
    ⟨401, ⟨"\x7b\"error\":\"invalid token\"\x7d", none⟩⟩ (by decide) rfl
  ⟨⟨by decide, rfl⟩, h.1, h.2.2.1 [] "hello" rfl, h.2.2.2 "b0" [] "hello" "image" rfl⟩

/-- C4: `handleResponse` returns no error exactly when the status code is
200, whatever the body holds and however reading it would end; and so do
`ShareText` and `SharePicture` on the response the client gives to their
request. -/
theorem success_iff_status_200 (w : weiboShareClient) (response : Response) :
    (w.handleResponse response = none ↔ response.StatusCode = 200)
      ∧ (∀ log text, w.client log (textRequest w text) = .ok response →
          ((w.ShareText log text).err = none ↔ response.StatusCode = 200))
      ∧ (∀ boundary log text pic,
          w.client log (pictureRequest w boundary text pic) = .ok response →
          ((w.SharePicture boundary log text ⟨pic, none⟩).err = none
            ↔ response.StatusCode = 200)) := by
  have h : w.handleResponse response = none ↔ response.StatusCode = 200 := by
    unfold handleResponse
    by_cases hs : response.StatusCode = 200
    · simp [hs]
    · simp only [hs, if_false, iff_false]
      cases ioReadAll response.Body <;> simp
  refine ⟨h, ?_, ?_⟩
  · intro log text hc
    rw [ShareText_eq]
    simp only [hc, h]
  · intro boundary log text pic hc
    rw [SharePicture_eq]
    simp only [hc, h]

/-- C4 at a 200 response with a body that is not JSON and at a 201 response:
the first is a success for both operations, the second is not. -/
theorem success_iff_status_200_witness :
    ((⟨fun _ _ => .ok ⟨200, ⟨"<html>oops", none⟩⟩, "token", "src"⟩ :
          weiboShareClient).ShareText [] "hello").err = none
      ∧ ((⟨fun _ _ => .ok ⟨200, ⟨"<html>oops", none⟩⟩, "token", "src"⟩ :
          weiboShareClient).SharePicture "b0" [] "hello" ⟨"image", none⟩).err = none
      ∧ ((⟨fun _ _ => .ok ⟨201, ⟨"", none⟩⟩, "token", "src"⟩ :
          weiboShareClient).ShareText [] "hello").err ≠ none :=
  ⟨((success_iff_status_200
        ⟨fun _ _ => .ok ⟨200, ⟨"<html>oops", none⟩⟩, "token", "src"⟩
        ⟨200, ⟨"<html>oops", none⟩⟩).2.1 [] "hello" rfl).2 rfl,
   ((success_iff_status_200
        ⟨fun _ _ => .ok ⟨200, ⟨"<html>oops", none⟩⟩, "token", "src"⟩
        ⟨200, ⟨"<html>oops", none⟩⟩).2.2 "b0" [] "hello" "image" rfl).2 rfl,
   fun h => absurd
    (((success_iff_status_200
        ⟨fun _ _ => .ok ⟨201, ⟨"", none⟩⟩, "token", "src"⟩
        ⟨201, ⟨"", none⟩⟩).2.1 [] "hello" rfl).1 h) (by decide)⟩

end weiboShareClient

/-! ## The fetcher: the fields of `images[0]` -/

namespace weiboShareClient

/-- C5: when the body of the metadata response is a well-formed JSON
document, an object whose member `images` is an array that starts with an
object with the string members `copyright` and `url`, `getBingContent`
succeeds, `Description` is the `copyright` string and `ImageURL` is
`https://cn.bing.com` followed by the `url` string. -/
theorem getBingContent_extracts_fields (w : weiboShareClient) (lib : gjson.Unmodelled)
    (log : List Request) (response : Response) (raw raw1 raw0 : String)
    (members fields : List (String × gjson.Value)) (rest : List gjson.Value)
    (copyright url : String)
    (hget : w.client log metadataRequest = .ok response)
    (hread : response.Body.err = none)
    (hdoc : gjson.parse response.Body.data = some (.object raw members))
    (himages : members.lookup "images" = some (.array raw1 (.object raw0 fields :: rest)))
    (hcopyright : fields.lookup "copyright" = some (.string copyright))
    (hurl : fields.lookup "url" = some (.string url)) :
    (w.getBingContent lib log).1
      = .ok { Description := copyright, ImageURL := "https://cn.bing.com" ++ url } := by
  rw [getBingContent_eq]
  simp only [hget, hread]
  rw [gjson.GetBytes_field lib _ _ "copyright" raw raw1 raw0 members fields rest _
        gjson.pathParts_copyright hdoc himages hcopyright,
      gjson.GetBytes_field lib _ _ "url" raw raw1 raw0 members fields rest _
        gjson.pathParts_url hdoc himages hurl]
  rfl

/-- C5 at the document
`{"images":[{"copyright":"Sunset over hills","url":"/img1.jpg"}]}`. -/
theorem getBingContent_extracts_fields_witness :
    gjson.parse "\x7b\"images\":[\x7b\"copyright\":\"Sunset over hills\",\"url\":\"/img1.jpg\"\x7d]\x7d"
        = some (.object
            "\x7b\"images\":[\x7b\"copyright\":\"Sunset over hills\",\"url\":\"/img1.jpg\"\x7d]\x7d"
            [("images", .array
                "[\x7b\"copyright\":\"Sunset over hills\",\"url\":\"/img1.jpg\"\x7d]"
                [.object "\x7b\"copyright\":\"Sunset over hills\",\"url\":\"/img1.jpg\"\x7d"
                  [("copyright", .string "Sunset over hills"),
                   ("url", .string "/img1.jpg")]])])
      ∧ ((⟨fun _ _ => .ok ⟨200,
              ⟨"\x7b\"images\":[\x7b\"copyright\":\"Sunset over hills\",\"url\":\"/img1.jpg\"\x7d]\x7d",
               none⟩⟩, "token", "src"⟩ : weiboShareClient).getBingContent
            ⟨fun raw => raw, fun _ _ => gjson.Result.zero⟩ []).1
          = .ok { Description := "Sunset over hills",
                  ImageURL := "https://cn.bing.com" ++ "/img1.jpg" } :=
  ⟨rfl,
   getBingContent_extracts_fields
     ⟨fun _ _ => .ok ⟨200,
        ⟨"\x7b\"images\":[\x7b\"copyright\":\"Sunset over hills\",\"url\":\"/img1.jpg\"\x7d]\x7d",
         none⟩⟩, "token", "src"⟩
     ⟨fun raw => raw, fun _ _ => gjson.Result.zero⟩ []
     ⟨200,
        ⟨"\x7b\"images\":[\x7b\"copyright\":\"Sunset over hills\",\"url\":\"/img1.jpg\"\x7d]\x7d",
         none⟩⟩
     "\x7b\"images\":[\x7b\"copyright\":\"Sunset over hills\",\"url\":\"/img1.jpg\"\x7d]\x7d"
     "[\x7b\"copyright\":\"Sunset over hills\",\"url\":\"/img1.jpg\"\x7d]"
     "\x7b\"copyright\":\"Sunset over hills\",\"url\":\"/img1.jpg\"\x7d"
     [("images", .array
        "[\x7b\"copyright\":\"Sunset over hills\",\"url\":\"/img1.jpg\"\x7d]"
        [.object "\x7b\"copyright\":\"Sunset over hills\",\"url\":\"/img1.jpg\"\x7d"
          [("copyright", .string "Sunset over hills"), ("url", .string "/img1.jpg")]])]
     [("copyright", .string "Sunset over hills"), ("url", .string "/img1.jpg")]
     [] "Sunset over hills" "/img1.jpg" rfl rfl rfl rfl rfl rfl⟩

/-- C6 as stated fails: in the well-formed document
`{"images":[{"copyright":42,"url":true}]}` neither field is a JSON string,
and `getBingContent` returns the description `42` and the URL
`https://cn.bing.comtrue`, not the empty string and the bare host. -/
theorem getBingContent_number_is_not_empty :
    gjson.parse "\x7b\"images\":[\x7b\"copyright\":42,\"url\":true\x7d]\x7d"
        = some (.object "\x7b\"images\":[\x7b\"copyright\":42,\"url\":true\x7d]\x7d"
            [("images", .array "[\x7b\"copyright\":42,\"url\":true\x7d]"
                [.object "\x7b\"copyright\":42,\"url\":true\x7d"
                  [("copyright", .number "42"), ("url", .bool true)]])])
      ∧ ((⟨fun _ _ => .ok ⟨200,
              ⟨"\x7b\"images\":[\x7b\"copyright\":42,\"url\":true\x7d]\x7d", none⟩⟩,
            "token", "src"⟩ : weiboShareClient).getBingContent
            ⟨fun raw => raw, fun _ _ => gjson.Result.zero⟩ []).1
          = .ok { Description := "42", ImageURL := "https://cn.bing.comtrue" }
      ∧ "42" ≠ "" ∧ "https://cn.bing.comtrue" ≠ "https://cn.bing.com" := by
  refine ⟨rfl, ?_, by decide, by decide⟩
  rw [getBingContent_eq]
  rfl

/-- C6, amended: whatever the body of the metadata response holds,
`getBingContent` does not fail once the body is read; and when the body is a
well-formed JSON object with distinct member names in which the field of
`images[0]` is missing (no `images`, an empty `images` array, no such member
in `images[0]`, or the value `null`), the description is `""` for
`copyright`, and the URL is the bare host for `url`. -/
theorem getBingContent_missing_field_is_empty (w : weiboShareClient)
    (lib : gjson.Unmodelled) (log : List Request) (response : Response)
    (hget : w.client log metadataRequest = .ok response)
    (hread : response.Body.err = none) :
    (∃ content, (w.getBingContent lib log).1 = .ok content)
      ∧ ∀ raw members, gjson.parse response.Body.data = some (.object raw members) →
          (members.map Prod.fst).Nodup →
          (fieldMissing members "copyright" →
            ∃ content, (w.getBingContent lib log).1 = .ok content
              ∧ content.Description = "")
          ∧ (fieldMissing members "url" →
            ∃ content, (w.getBingContent lib log).1 = .ok content
              ∧ content.ImageURL = "https://cn.bing.com") := by
  rw [getBingContent_eq]
  simp only [hget, hread]
  refine ⟨⟨_, rfl⟩, ?_⟩
  intro raw members hdoc hnames
  constructor
  · intro hmissing
    exact ⟨_, rfl, gjson.GetBytes_missing lib _ _ "copyright" raw members
      gjson.pathParts_copyright hdoc hnames hmissing⟩
  · intro hmissing
    refine ⟨_, rfl, ?_⟩
    show "https://cn.bing.com" ++ _ = "https://cn.bing.com"
    rw [gjson.GetBytes_missing lib _ _ "url" raw members
      gjson.pathParts_url hdoc hnames hmissing]
    rfl

/-- C6, amended, at the documents `{"images":[]}` (both fields missing) and
`{"images":[{"copyright":null,"url":"/a.jpg"}]}` (`copyright` is `null`). -/
theorem getBingContent_missing_field_is_empty_witness :
    (∃ content,
        ((⟨fun _ _ => .ok ⟨200, ⟨"\x7b\"images\":[]\x7d", none⟩⟩, "token", "src"⟩ :
            weiboShareClient).getBingContent
            ⟨fun raw => raw, fun _ _ => gjson.Result.zero⟩ []).1 = .ok content
          ∧ content.ImageURL = "https://cn.bing.com")
      ∧ (∃ content,
        ((⟨fun _ _ => .ok ⟨200,
              ⟨"\x7b\"images\":[\x7b\"copyright\":null,\"url\":\"/a.jpg\"\x7d]\x7d", none⟩⟩,
            "token", "src"⟩ : weiboShareClient).getBingContent
            ⟨fun raw => raw, fun _ _ => gjson.Result.zero⟩ []).1 = .ok content
          ∧ content.Description = "") :=
  ⟨((getBingContent_missing_field_is_empty
        ⟨fun _ _ => .ok ⟨200, ⟨"\x7b\"images\":[]\x7d", none⟩⟩, "token", "src"⟩
        ⟨fun raw => raw, fun _ _ => gjson.Result.zero⟩ []
        ⟨200, ⟨"\x7b\"images\":[]\x7d", none⟩⟩ rfl rfl).2
        "\x7b\"images\":[]\x7d" [("images", .array "[]" [])] rfl (by simp)).2
      (Or.inr (Or.inl ⟨"[]", rfl⟩)),
   ((getBingContent_missing_field_is_empty
        ⟨fun _ _ => .ok ⟨200,
          ⟨"\x7b\"images\":[\x7b\"copyright\":null,\"url\":\"/a.jpg\"\x7d]\x7d", none⟩⟩,
          "token", "src"⟩
        ⟨fun raw => raw, fun _ _ => gjson.Result.zero⟩ []
        ⟨200, ⟨"\x7b\"images\":[\x7b\"copyright\":null,\"url\":\"/a.jpg\"\x7d]\x7d", none⟩⟩
        rfl rfl).2
        "\x7b\"images\":[\x7b\"copyright\":null,\"url\":\"/a.jpg\"\x7d]\x7d"
        [("images", .array "[\x7b\"copyright\":null,\"url\":\"/a.jpg\"\x7d]"
          [.object "\x7b\"copyright\":null,\"url\":\"/a.jpg\"\x7d"
            [("copyright", .null), ("url", .string "/a.jpg")]])]
        rfl (by simp)).1
      (Or.inr (Or.inr ⟨"[\x7b\"copyright\":null,\"url\":\"/a.jpg\"\x7d]",
        "\x7b\"copyright\":null,\"url\":\"/a.jpg\"\x7d",
        [("copyright", .null), ("url", .string "/a.jpg")], [], rfl, Or.inr rfl⟩))⟩

/-- C7 as stated fails: the body `not json` is not well-formed JSON, and
`getBingContent` returns no error but a `BingContent` with the empty
description and the bare host as URL. -/
theorem getBingContent_not_json_succeeds :
    gjson.parse "not json" = none
      ∧ (⟨fun _ _ => .ok ⟨200, ⟨"not json", none⟩⟩, "token", "src"⟩ :
            weiboShareClient).getBingContent
            ⟨fun raw => raw, fun _ _ => gjson.Result.zero⟩ []
          = (.ok { Description := "", ImageURL := "https://cn.bing.com" },
             [metadataRequest]) := by
  refine ⟨rfl, ?_⟩
  rw [getBingContent_eq]
  rfl

/-- C7, amended: `getBingContent` has no parse error.  It fails exactly when
the `GET` fails or the body cannot be read to its end, with that error; for
every body that is read, well-formed JSON or not, it returns a `BingContent`,
and for a body that is not well-formed and holds no `{` and no `[` the
description is `""` and the URL the bare host. -/
theorem getBingContent_has_no_parse_error (w : weiboShareClient) (lib : gjson.Unmodelled)
    (log : List Request) :
    (∀ e, (w.getBingContent lib log).1 = .error e ↔
        (w.client log metadataRequest = .error e
          ∨ ∃ response, w.client log metadataRequest = .ok response
              ∧ response.Body.err = some e))
      ∧ (∀ response, w.client log metadataRequest = .ok response →
          response.Body.err = none →
          (∃ content, (w.getBingContent lib log).1 = .ok content)
            ∧ (gjson.parse response.Body.data = none →
                response.Body.data.toList.all (fun c => c ≠ '\x7b' ∧ c ≠ '[') = true →
                (w.getBingContent lib log).1
                  = .ok { Description := "", ImageURL := "https://cn.bing.com" })) := by
  rw [getBingContent_eq]
  constructor
  · intro e
    rcases hc : w.client log metadataRequest with e1 | ⟨status, data, _ | e1⟩
    · simp
    · simp
    · simp
  · intro response hget hread
    simp only [hget, hread]
    refine ⟨⟨_, rfl⟩, ?_⟩
    intro hp hb
    rw [gjson.GetBytes_no_bracket lib _ _ hb hp, gjson.GetBytes_no_bracket lib _ _ hb hp]
    rfl

/-- C7, amended, at the body `<html>oops</html>`. -/
theorem getBingContent_has_no_parse_error_witness :
    gjson.parse "<html>oops</html>" = none
      ∧ ((⟨fun _ _ => .ok ⟨200, ⟨"<html>oops</html>", none⟩⟩, "token", "src"⟩ :
            weiboShareClient).getBingContent
            ⟨fun raw => raw, fun _ _ => gjson.Result.zero⟩ []).1
          = .ok { Description := "", ImageURL := "https://cn.bing.com" } :=
  ⟨rfl,
   ((getBingContent_has_no_parse_error
      ⟨fun _ _ => .ok ⟨200, ⟨"<html>oops</html>", none⟩⟩, "token", "src"⟩
      ⟨fun raw => raw, fun _ _ => gjson.Result.zero⟩ []).2
      ⟨200, ⟨"<html>oops</html>", none⟩⟩ rfl rfl).2 rfl (by decide)⟩

end weiboShareClient

/-! ## The workflow: the order of the calls, the start-up, the image buffer -/

namespace weiboShareClient

/-- C8: whatever the client answers, the calls `shareImageFromBing` issues
are a non-empty prefix of the metadata `GET`, the image `GET` and the
multipart upload, in that order; a call that fails is the last call and its
error is the error returned; when no call fails there are exactly three calls
and no error; and no text-only share request is ever issued. -/
theorem shareImageFromBing_calls_in_order (w : weiboShareClient) (lib : gjson.Unmodelled)
    (boundary : String) :
    ∃ imageURL caption image,
      (w.shareImageFromBing lib boundary []).2
          <+: [metadataRequest, imageRequest imageURL,
                pictureRequest w boundary caption image]
      ∧ (w.shareImageFromBing lib boundary []).2 ≠ []
      ∧ (∀ i req e, (w.shareImageFromBing lib boundary []).2[i]? = some req →
          callError w ((w.shareImageFromBing lib boundary []).2.take i) req = some e →
          (w.shareImageFromBing lib boundary []).1 = some e
            ∧ (w.shareImageFromBing lib boundary []).2.length = i + 1)
      ∧ ((∀ i req, (w.shareImageFromBing lib boundary []).2[i]? = some req →
            callError w ((w.shareImageFromBing lib boundary []).2.take i) req = none) →
          (w.shareImageFromBing lib boundary []).1 = none
            ∧ (w.shareImageFromBing lib boundary []).2.length = 3)
      ∧ ∀ text, textRequest w text ∉ (w.shareImageFromBing lib boundary []).2 := by
  rw [shareImageFromBing_eq]
  simp only [List.nil_append]
  have hm : metadataRequest.Method = "GET" := rfl
  have hi : ∀ u, (imageRequest u).Method = "GET" := fun _ => rfl
  have hp : ∀ b c d, ¬ (pictureRequest w b c d).Method = "GET" := by
    intro b c d
    simp [pictureRequest]
  -- the metadata call
  rcases h1 : w.client [] metadataRequest with e1 | ⟨s1, d1, _ | e1⟩
  · -- transport error
    simp only
    have hpre : [metadataRequest] <+: [metadataRequest, imageRequest "",
        pictureRequest w boundary "" ""] := ⟨_, rfl⟩
    refine ⟨"", "", "", hpre, by simp, ?_, ?_, fun text => textRequest_not_mem w _ text _ _ _ _ hpre⟩
    · intro i req e hget hce
      rcases i with _ | i
      · simp only [List.getElem?_cons_zero, Option.some.injEq] at hget
        subst hget
        simp only [callError, List.take_zero, h1, Option.some.injEq] at hce
        subst hce
        exact ⟨rfl, rfl⟩
      · simp at hget
    · intro hall
      have := hall 0 metadataRequest rfl
      simp [callError, h1] at this
  · -- the body is read
    simp only
    rcases h2 : w.client [metadataRequest] (imageRequest (bingContentOf lib d1).ImageURL)
      with e2 | ⟨s2, d2, _ | e2⟩
    · -- the image call: transport error
      simp only
      have hpre : [metadataRequest, imageRequest (bingContentOf lib d1).ImageURL]
          <+: [metadataRequest, imageRequest (bingContentOf lib d1).ImageURL,
            pictureRequest w boundary "" ""] := ⟨_, rfl⟩
      refine ⟨_, "", "", hpre, by simp, ?_, ?_, fun text => textRequest_not_mem w _ text _ _ _ _ hpre⟩
      · intro i req e hget hce
        rcases i with _ | _ | i
        · simp only [List.getElem?_cons_zero, Option.some.injEq] at hget
          subst hget
          simp [callError, h1, hm] at hce
        · simp only [List.getElem?_cons_succ, List.getElem?_cons_zero,
            Option.some.injEq] at hget
          subst hget
          simp only [callError, List.take_succ_cons, List.take_zero, h2,
            Option.some.injEq] at hce
          subst hce
          exact ⟨rfl, rfl⟩
        · simp at hget
      · intro hall
        have := hall 1 _ rfl
        simp [callError, h2] at this
    · -- the image is read
      simp only
      have hpre : [metadataRequest, imageRequest (bingContentOf lib d1).ImageURL,
            pictureRequest w boundary (bingContentOf lib d1).Description d2]
          <+: [metadataRequest, imageRequest (bingContentOf lib d1).ImageURL,
            pictureRequest w boundary (bingContentOf lib d1).Description d2] :=
        List.prefix_refl _
      refine ⟨_, _, _, hpre, by simp, ?_, ?_, fun text => textRequest_not_mem w _ text _ _ _ _ hpre⟩
      · intro i req e hget hce
        rcases i with _ | _ | _ | i
        · simp only [List.getElem?_cons_zero, Option.some.injEq] at hget
          subst hget
          simp [callError, h1, hm] at hce
        · simp only [List.getElem?_cons_succ, List.getElem?_cons_zero,
            Option.some.injEq] at hget
          subst hget
          simp [callError, h2, hi] at hce
        · simp only [List.getElem?_cons_succ, List.getElem?_cons_zero,
            Option.some.injEq] at hget
          subst hget
          simp only [callError, List.take_succ_cons, List.take_zero, hp, if_false] at hce
          exact ⟨hce, rfl⟩
        · simp at hget
      · intro hall
        have := hall 2 _ rfl
        simp only [callError, List.take_succ_cons, List.take_zero, hp, if_false] at this
        exact ⟨this, rfl⟩
    · -- the image cannot be read
      simp only
      have hpre : [metadataRequest, imageRequest (bingContentOf lib d1).ImageURL]
          <+: [metadataRequest, imageRequest (bingContentOf lib d1).ImageURL,
            pictureRequest w boundary "" ""] := ⟨_, rfl⟩
      refine ⟨_, "", "", hpre, by simp, ?_, ?_, fun text => textRequest_not_mem w _ text _ _ _ _ hpre⟩
      · intro i req e hget hce
        rcases i with _ | _ | i
        · simp only [List.getElem?_cons_zero, Option.some.injEq] at hget
          subst hget
          simp [callError, h1, hm] at hce
        · simp only [List.getElem?_cons_succ, List.getElem?_cons_zero,
            Option.some.injEq] at hget
          subst hget
          simp only [callError, List.take_succ_cons, List.take_zero, h2, hi, if_true,
            Option.some.injEq] at hce
          subst hce
          exact ⟨rfl, rfl⟩
        · simp at hget
      · intro hall
        have := hall 1 _ rfl
        simp [callError, h2, hi] at this
  · -- the metadata body cannot be read
    simp only
    have hpre : [metadataRequest] <+: [metadataRequest, imageRequest "",
        pictureRequest w boundary "" ""] := ⟨_, rfl⟩
    refine ⟨"", "", "", hpre, by simp, ?_, ?_, fun text => textRequest_not_mem w _ text _ _ _ _ hpre⟩
    · intro i req e hget hce
      rcases i with _ | i
      · simp only [List.getElem?_cons_zero, Option.some.injEq] at hget
        subst hget
        simp only [callError, List.take_zero, h1, hm, if_true, Option.some.injEq] at hce
        subst hce
        exact ⟨rfl, rfl⟩
      · simp at hget
    · intro hall
      have := hall 0 metadataRequest rfl
      simp [callError, h1, hm] at this

end weiboShareClient

namespace weiboShareClient

/-- C8 in the end-to-end scenario of the specification (the three calls
succeed: three calls, no error) and in a run whose image download fails (two
calls, the error of the download). -/
theorem shareImageFromBing_calls_in_order_witness :
    ((⟨stubClient sunsetDocument "JPEG" 200 "", "token", "src"⟩ :
          weiboShareClient).shareImageFromBing someLib "b0" []).1 = none
      ∧ ((⟨stubClient sunsetDocument "JPEG" 200 "", "token", "src"⟩ :
          weiboShareClient).shareImageFromBing someLib "b0" []).2
        = [metadataRequest, imageRequest "https://cn.bing.com/img1.jpg",
            pictureRequest ⟨stubClient sunsetDocument "JPEG" 200 "", "token", "src"⟩
              "b0" "Sunset over hills" "JPEG"]
      ∧ (⟨stubClientNoImage sunsetDocument ⟨"connection refused"⟩, "token", "src"⟩ :
          weiboShareClient).shareImageFromBing someLib "b0" []
        = (some ⟨"connection refused"⟩,
           [metadataRequest, imageRequest "https://cn.bing.com/img1.jpg"]) := by
  have hlog : ((⟨stubClient sunsetDocument "JPEG" 200 "", "token", "src"⟩ :
          weiboShareClient).shareImageFromBing someLib "b0" []).2
        = [metadataRequest, imageRequest "https://cn.bing.com/img1.jpg",
            pictureRequest ⟨stubClient sunsetDocument "JPEG" 200 "", "token", "src"⟩
              "b0" "Sunset over hills" "JPEG"] := by
    rw [shareImageFromBing_eq]
    rfl
  have hlog2 : ((⟨stubClientNoImage sunsetDocument ⟨"connection refused"⟩, "token", "src"⟩ :
          weiboShareClient).shareImageFromBing someLib "b0" []).2
        = [metadataRequest, imageRequest "https://cn.bing.com/img1.jpg"] := by
    rw [shareImageFromBing_eq]
    rfl
  obtain ⟨_, _, _, _, _, _, hall, _⟩ := shareImageFromBing_calls_in_order
    ⟨stubClient sunsetDocument "JPEG" 200 "", "token", "src"⟩ someLib "b0"
  obtain ⟨_, _, _, _, _, hfail, _, _⟩ := shareImageFromBing_calls_in_order
    ⟨stubClientNoImage sunsetDocument ⟨"connection refused"⟩, "token", "src"⟩ someLib "b0"
  refine ⟨(hall ?_).1, hlog, ?_⟩
  · intro i req hget
    rw [hlog] at hget ⊢
    rcases i with _ | _ | _ | i
    · simp only [List.getElem?_cons_zero, Option.some.injEq] at hget
      subst hget
      rfl
    · simp only [List.getElem?_cons_succ, List.getElem?_cons_zero, Option.some.injEq] at hget
      subst hget
      rfl
    · simp only [List.getElem?_cons_succ, List.getElem?_cons_zero, Option.some.injEq] at hget
      subst hget
      rfl
    · simp at hget
  · have h := hfail 1 (imageRequest "https://cn.bing.com/img1.jpg") ⟨"connection refused"⟩
      (by rw [hlog2]; rfl) (by rw [hlog2]; rfl)
    exact Prod.ext h.1 hlog2

end weiboShareClient

/-- C9: when the access token or the source is the empty string, `main` ends
with status 1 and has made no HTTP call; when both are non-empty it
constructs the client from them and runs the workflow, whose calls are the
calls of the process and are not none; so a call is made only when both are
non-empty. -/
theorem main_missing_parameter_is_fatal (DefaultClient : HTTPClient)
    (lib : gjson.Unmodelled) (boundary AccessToken Source : String) :
    (AccessToken = "" ∨ Source = "" →
        (main DefaultClient lib boundary AccessToken Source).status = 1
          ∧ (main DefaultClient lib boundary AccessToken Source).status ≠ 0
          ∧ (main DefaultClient lib boundary AccessToken Source).calls = [])
      ∧ (AccessToken ≠ "" → Source ≠ "" →
          (main DefaultClient lib boundary AccessToken Source).calls
            = ((NewWeiboShareClient DefaultClient AccessToken Source).shareImageFromBing
                lib boundary []).2
          ∧ (main DefaultClient lib boundary AccessToken Source).calls ≠ [])
      ∧ ((main DefaultClient lib boundary AccessToken Source).calls ≠ [] →
          AccessToken ≠ "" ∧ Source ≠ "") := by
  have hcalls : AccessToken ≠ "" → Source ≠ "" →
      (main DefaultClient lib boundary AccessToken Source).calls
        = ((NewWeiboShareClient DefaultClient AccessToken Source).shareImageFromBing
            lib boundary []).2 := by
    intro ht hs
    simp only [main, ht, hs, if_false]
    rcases (NewWeiboShareClient DefaultClient AccessToken Source).shareImageFromBing
      lib boundary [] with ⟨_ | e, calls⟩ <;> rfl
  refine ⟨?_, ?_, ?_⟩
  · rintro (h | h)
    · simp [main, h]
    · by_cases ht : AccessToken = ""
      · simp [main, ht]
      · simp [main, ht, h]
  · intro ht hs
    refine ⟨hcalls ht hs, ?_⟩
    rw [hcalls ht hs]
    exact weiboShareClient.shareImageFromBing_calls_ne_nil _ lib boundary []
  · intro hne
    by_cases ht : AccessToken = ""
    · simp [main, ht] at hne
    · by_cases hs : Source = ""
      · simp [main, ht, hs] at hne
      · exact ⟨ht, hs⟩

/-- C9 at a missing token, at a missing source, and at both given. -/
theorem main_missing_parameter_is_fatal_witness :
    ((main (stubClient sunsetDocument "JPEG" 200 "") someLib "b0" "" "src").status = 1
        ∧ (main (stubClient sunsetDocument "JPEG" 200 "") someLib "b0" "" "src").calls = [])
      ∧ ((main (stubClient sunsetDocument "JPEG" 200 "") someLib "b0" "token" "").status = 1
        ∧ (main (stubClient sunsetDocument "JPEG" 200 "") someLib "b0" "token" "").calls = [])
      ∧ (main (stubClient sunsetDocument "JPEG" 200 "") someLib "b0" "token" "src").calls
          ≠ [] :=
  ⟨⟨((main_missing_parameter_is_fatal (stubClient sunsetDocument "JPEG" 200 "") someLib
        "b0" "" "src").1 (Or.inl rfl)).1,
    ((main_missing_parameter_is_fatal (stubClient sunsetDocument "JPEG" 200 "") someLib
        "b0" "" "src").1 (Or.inl rfl)).2.2⟩,
   ⟨((main_missing_parameter_is_fatal (stubClient sunsetDocument "JPEG" 200 "") someLib
        "b0" "token" "").1 (Or.inr rfl)).1,
    ((main_missing_parameter_is_fatal (stubClient sunsetDocument "JPEG" 200 "") someLib
        "b0" "token" "").1 (Or.inr rfl)).2.2⟩,
   ((main_missing_parameter_is_fatal (stubClient sunsetDocument "JPEG" 200 "") someLib
        "b0" "token" "src").2.1 (by decide) (by decide)).2⟩

namespace weiboShareClient

/-- C10 as stated fails: for the image `0123456789` the body of the upload
request, which is the content of the in-memory buffer, holds the whole image;
and no bound holds for the size of that buffer over all images. -/
theorem SharePicture_buffer_is_not_bounded :
    ((⟨fun _ _ => .ok ⟨200, ⟨"", none⟩⟩, "token", "src"⟩ : weiboShareClient).SharePicture
        "b0" [] "hi" ⟨"0123456789", none⟩).calls.map Request.Body
      = ["--b0\r\nContent-Disposition: form-data; name=\"status\"\r\n\r\nhisrc\r\n--b0\r\nContent-Disposition: form-data; name=\"pic\"; filename=\"pic\"\r\nContent-Type: application/octet-stream\r\n\r\n0123456789\r\n--b0--\r\n"]
      ∧ ¬ ∃ bound : Nat, ∀ image : String,
          ∀ req ∈ ((⟨fun _ _ => .ok ⟨200, ⟨"", none⟩⟩, "token", "src"⟩ :
              weiboShareClient).SharePicture "b0" [] "hi" ⟨image, none⟩).calls,
            req.Body.length ≤ bound := by
  constructor
  · rw [SharePicture_eq]
    rfl
  · rintro ⟨bound, h⟩
    have h1 : (multipartClosed "b0" ("hi" ++ "src")
        (String.mk (List.replicate (bound + 1) 'x'))).length ≤ bound :=
      h (String.mk (List.replicate (bound + 1) 'x'))
        (pictureRequest ⟨fun _ _ => .ok ⟨200, ⟨"", none⟩⟩, "token", "src"⟩ "b0" "hi"
          (String.mk (List.replicate (bound + 1) 'x')))
        (by rw [SharePicture_eq]; exact List.mem_append_right _ (List.mem_singleton_self _))
    rw [multipartClosed_length] at h1
    have h2 : (String.mk (List.replicate (bound + 1) 'x')).length = bound + 1 := by
      simp only [String.length, List.length_replicate]
    omega

/-- C10, amended: `SharePicture` copies the image stream to its end into the
in-memory buffer before it issues the upload request, and issues no request
when the stream fails.  The body of the request is the buffer; the image is a
contiguous part of it, and its size is the size of the image plus the size
of the body of an empty image, which does not depend on the image.  In the
workflow the image is the body of the download response. -/
theorem SharePicture_buffers_whole_image (w : weiboShareClient) (boundary : String)
    (log : List Request) (text : String) (reader : Reader) :
    (∀ e, reader.err = some e → (w.SharePicture boundary log text reader).calls = log)
      ∧ (reader.err = none →
          ∃ req, (w.SharePicture boundary log text reader).calls = log ++ [req]
            ∧ req.Body = (w.SharePicture boundary log text reader).body
            ∧ reader.data.toList <:+: req.Body.toList
            ∧ req.Body.length
                = reader.data.length
                  + (multipartClosed boundary (text ++ w.sourceURL) "").length)
      ∧ (∀ lib r1 r2, w.client [] metadataRequest = .ok r1 → r1.Body.err = none →
          w.client [metadataRequest] (imageRequest (bingContentOf lib r1.Body.data).ImageURL)
            = .ok r2 →
          r2.Body.err = none →
          ∃ req, (w.shareImageFromBing lib boundary []).2
              = [metadataRequest, imageRequest (bingContentOf lib r1.Body.data).ImageURL, req]
            ∧ r2.Body.data.toList <:+: req.Body.toList
            ∧ r2.Body.data.length ≤ req.Body.length) := by
  refine ⟨?_, ?_, ?_⟩
  · intro e he
    rw [SharePicture_eq]
    simp only [he]
  · intro he
    rw [SharePicture_eq]
    simp only [he]
    exact ⟨_, rfl, rfl, multipartClosed_infix _ _ _, multipartClosed_length _ _ _⟩
  · intro lib r1 r2 h1 he1 h2 he2
    rw [shareImageFromBing_eq]
    simp only [List.nil_append, h1, he1, h2, he2]
    refine ⟨_, rfl, multipartClosed_infix _ _ _, ?_⟩
    show r2.Body.data.length ≤ (multipartClosed _ _ _).length
    rw [multipartClosed_length]
    omega

/-- C10, amended, at the image `0123456789` and at an image stream that
fails after `0123`. -/
theorem SharePicture_buffers_whole_image_witness :
    (((⟨fun _ _ => .ok ⟨200, ⟨"", none⟩⟩, "token", "src"⟩ : weiboShareClient).SharePicture
        "b0" [] "hi" ⟨"0123", some ⟨"unexpected EOF"⟩⟩).calls = [])
      ∧ ∃ req,
        ((⟨fun _ _ => .ok ⟨200, ⟨"", none⟩⟩, "token", "src"⟩ : weiboShareClient).SharePicture
            "b0" [] "hi" ⟨"0123456789", none⟩).calls = [] ++ [req]
          ∧ "0123456789".toList <:+: req.Body.toList :=
  have h := SharePicture_buffers_whole_image
    ⟨fun _ _ => .ok ⟨200, ⟨"", none⟩⟩, "token", "src"⟩ "b0" [] "hi"
  ⟨(h ⟨"0123", some ⟨"unexpected EOF"⟩⟩).1 ⟨"unexpected EOF"⟩ rfl,
   match (h ⟨"0123456789", none⟩).2.1 rfl with
   | ⟨req, hc, _, hi, _⟩ => ⟨req, hc, hi⟩⟩

end weiboShareClient

/-! ## Further properties of the code -/

namespace weiboShareClient

/-- `ShareText` issues exactly one call, whatever its outcome: a `POST` to
the share endpoint with the header `Authorization: OAuth2 <token>`, the
content type of a URL-encoded form, and the body `status=` followed by the
text and the source, as they are. -/
theorem ShareText_issues_one_post (w : weiboShareClient) (log : List Request)
    (text : String) :
    (w.ShareText log text).calls
      = log ++ [{ Method := "POST", URL := "https://api.weibo.com/2/statuses/share.json",
                  Header := [("Authorization", "OAuth2 " ++ w.accessToken),
                             ("Content-Type", "application/x-www-form-urlencoded")],
                  Body := "status=" ++ text ++ w.sourceURL }] := by
  rw [ShareText_eq]
  rfl

/-- `SharePicture` returns the error of the image reader without issuing a
call; when the image is read to its end it issues exactly one call, a `POST`
to the share endpoint with the header `Authorization: OAuth2 <token>` and the
content type `multipart/form-data` with the boundary of the body. -/
theorem SharePicture_issues_one_post (w : weiboShareClient) (boundary : String)
    (log : List Request) (text image : String) (e : GoError) :
    (w.SharePicture boundary log text ⟨image, some e⟩).err = some e
      ∧ (w.SharePicture boundary log text ⟨image, some e⟩).calls = log
      ∧ ∃ body, (w.SharePicture boundary log text ⟨image, none⟩).calls
          = log ++ [{ Method := "POST",
                      URL := "https://api.weibo.com/2/statuses/share.json",
                      Header := [("Authorization", "OAuth2 " ++ w.accessToken),
                                 ("Content-Type",
                                    (multipart.NewWriter boundary).FormDataContentType)],
                      Body := body }] := by
  rw [SharePicture_eq, SharePicture_eq]
  exact ⟨rfl, rfl, _, rfl⟩

/-- `handleResponse` on a response whose status is not 200 and whose body
cannot be read returns the read error, not the formatted error. -/
theorem handleResponse_read_error (w : weiboShareClient) (status : Int) (data : String)
    (e : GoError) (hstatus : status ≠ 200) :
    w.handleResponse ⟨status, ⟨data, some e⟩⟩ = some e := by
  simp [handleResponse, hstatus, ioReadAll]

/-- A 500 response whose body breaks off. -/
theorem handleResponse_read_error_witness :
    (⟨fun _ _ => .error ⟨"unused"⟩, "token", "src"⟩ : weiboShareClient).handleResponse
        ⟨500, ⟨"partial", some ⟨"unexpected EOF"⟩⟩⟩ = some ⟨"unexpected EOF"⟩ :=
  handleResponse_read_error _ 500 "partial" ⟨"unexpected EOF"⟩ (by decide)

/-- `getBingContent` does not look at the status code of the metadata
response: two clients whose responses differ in the status code only give
the same result. -/
theorem getBingContent_ignores_status (w1 w2 : weiboShareClient) (lib : gjson.Unmodelled)
    (log : List Request) (s1 s2 : Int) (body : Reader)
    (h1 : w1.client log metadataRequest = .ok ⟨s1, body⟩)
    (h2 : w2.client log metadataRequest = .ok ⟨s2, body⟩) :
    w1.getBingContent lib log = w2.getBingContent lib log := by
  rw [getBingContent_eq, getBingContent_eq, h1, h2]

/-- The scenario document served with the status 200 and with the status
404. -/
theorem getBingContent_ignores_status_witness :
    (⟨fun _ _ => .ok ⟨200, ⟨sunsetDocument, none⟩⟩, "token", "src"⟩ :
        weiboShareClient).getBingContent someLib []
      = (⟨fun _ _ => .ok ⟨404, ⟨sunsetDocument, none⟩⟩, "token", "src"⟩ :
        weiboShareClient).getBingContent someLib [] :=
  getBingContent_ignores_status _ _ someLib [] 200 404 ⟨sunsetDocument, none⟩ rfl rfl

end weiboShareClient

/-- `main` ends with status 0 and logs `success` exactly when the workflow
returns no error; otherwise it ends with status 1 and logs the error. -/
theorem main_exit_status (DefaultClient : HTTPClient) (lib : gjson.Unmodelled)
    (boundary AccessToken Source : String) (hToken : AccessToken ≠ "")
    (hSource : Source ≠ "") :
    (((NewWeiboShareClient DefaultClient AccessToken Source).shareImageFromBing
          lib boundary []).1 = none →
        (main DefaultClient lib boundary AccessToken Source).status = 0
          ∧ (main DefaultClient lib boundary AccessToken Source).logged = ["success"])
      ∧ ∀ e, ((NewWeiboShareClient DefaultClient AccessToken Source).shareImageFromBing
          lib boundary []).1 = some e →
        (main DefaultClient lib boundary AccessToken Source).status = 1
          ∧ (main DefaultClient lib boundary AccessToken Source).logged = [e.msg] := by
  simp only [main, hToken, hSource, if_false]
  rcases (NewWeiboShareClient DefaultClient AccessToken Source).shareImageFromBing
    lib boundary [] with ⟨_ | e1, calls⟩
  · simp
  · simp

/-- The end-to-end scenario of the specification: status 0 and the line
`success`, after three calls. -/
theorem main_exit_status_witness :
    (main (stubClient sunsetDocument "JPEG" 200 "") someLib "b0" "token" "src").status = 0
      ∧ (main (stubClient sunsetDocument "JPEG" 200 "") someLib "b0" "token" "src").logged
          = ["success"]
      ∧ (main (stubClient sunsetDocument "JPEG" 200 "") someLib "b0" "token" "src").calls.length
          = 3 :=
  have h := (main_exit_status (stubClient sunsetDocument "JPEG" 200 "") someLib "b0"
    "token" "src" (by decide) (by decide)).1
    (by rw [weiboShareClient.shareImageFromBing_eq]; rfl)
  ⟨h.1, h.2, by
    simp only [main]
    rw [weiboShareClient.shareImageFromBing_eq]
    rfl⟩

namespace weiboShareClient

/-- What `SharePicture` transmits, read back: when the delimiter of the
boundary occurs neither in the caption with the source suffix nor in the
image, the body of the upload request is read as two parts, the form field
named `status` whose value is exactly the text followed by the source
suffix, and the file `pic` whose content is the image. -/
theorem SharePicture_reads_back (w : weiboShareClient) (boundary : String)
    (log : List Request) (text image : String)
    (hstatus : multipart.fresh boundary (text ++ w.sourceURL))
    (himage : multipart.fresh boundary image) :
    ∃ req, (w.SharePicture boundary log text ⟨image, none⟩).calls = log ++ [req]
      ∧ multipart.readForm boundary req.Body
        = some [("Content-Disposition: form-data; name=\"status\"", text ++ w.sourceURL),
            ("Content-Disposition: form-data; name=\"pic\"; filename=\"pic\"\r\nContent-Type: application/octet-stream",
              image)] := by
  rw [SharePicture_eq]
  exact ⟨_, rfl, multipart.readForm_multipartClosed boundary _ image hstatus himage⟩

/-- The caption `Sunset over hills`, the source `src` and the image `JPEG`
with the boundary `b0`. -/
theorem SharePicture_reads_back_witness :
    multipart.fresh "b0" ("Sunset over hills" ++ "src") ∧ multipart.fresh "b0" "JPEG"
      ∧ ∃ req,
        ((⟨fun _ _ => .ok ⟨200, ⟨"", none⟩⟩, "token", "src"⟩ : weiboShareClient).SharePicture
            "b0" [] "Sunset over hills" ⟨"JPEG", none⟩).calls = [] ++ [req]
          ∧ multipart.readForm "b0" req.Body
            = some [("Content-Disposition: form-data; name=\"status\"",
                "Sunset over hills" ++ "src"),
              ("Content-Disposition: form-data; name=\"pic\"; filename=\"pic\"\r\nContent-Type: application/octet-stream",
                "JPEG")] :=
  ⟨rfl, rfl,
   SharePicture_reads_back ⟨fun _ _ => .ok ⟨200, ⟨"", none⟩⟩, "token", "src"⟩ "b0" []
     "Sunset over hills" "JPEG" rfl rfl⟩

end weiboShareClient

end CronWeather
